import Mathlib

/-!
# Verification of the finance-agent command interpreter

Shallow embedding of the TypeScript core of the `cf_ai_finance_agent`
repository (file `src/unnamed/part_005`, class `APIHandlers`, plus the
RAG retrieval entry point of `src/src/api-handlers.ts`).

Modelling conventions:
* JavaScript numbers are modelled as `Option ℚ` (`none` is `NaN`); the
  exact-rational model ignores IEEE-754 rounding, which none of the
  verified properties depend on.  `Infinity` only occurs as the initial
  accumulator of the lowest-spending-day scan and is modelled there by
  an `Option` accumulator.
* JavaScript strings are manipulated through their character lists so
  that every definition evaluates by kernel reduction.
* Ambient time (`new Date()`) is threaded explicitly as a `Clock`
  value; `crypto.randomUUID()` is threaded as a fresh-id function.
* The durable-object storage is modelled by the `Store` record; JS
  `Record<string, _>` objects are insertion-ordered association lists
  (`recGet` / `recPut`), matching JS string-key enumeration order.
* `undefined` record fields are modelled by `Option`; a missing
  transaction date is the empty string (both `undefined` and `""` are
  falsy in the guards the source uses).
-/

namespace FinAgent

/-! ## Characters and strings -/

/-- The `{` character (written via its code so that brace pairing in
this file stays unambiguous). -/
def obr : Char := Char.ofNat 123

/-- The `}` character. -/
def cbr : Char := Char.ofNat 125

/-- The `"` character. -/
def qch : Char := Char.ofNat 34

/-- The `\` character. -/
def bsl : Char := Char.ofNat 92

/-- ASCII lower-casing, as `String.prototype.toLowerCase` acts on the
ASCII range (no transaction data in this system is non-ASCII). -/
def lcChar (c : Char) : Char := c.toLower

def lcStr (s : String) : String := ⟨s.data.map lcChar⟩

def ucChar (c : Char) : Char := c.toUpper

def ucStr (s : String) : String := ⟨s.data.map ucChar⟩

/-- Does list `l` start with list `p`? -/
def listStartsWith [DecidableEq α] : List α → List α → Bool
  | _, [] => true
  | [], _ :: _ => false
  | a :: l, b :: p => a = b && listStartsWith l p

/-- JS `String.prototype.startsWith`. -/
def strStartsWith (s p : String) : Bool := listStartsWith s.data p.data

/-- JS `String.prototype.includes` (substring containment). -/
def listContainsSub [DecidableEq α] : List α → List α → Bool
  | l, p =>
    match l with
    | [] => listStartsWith [] p
    | _ :: t => listStartsWith l p || listContainsSub t p

def strIncludes (s sub : String) : Bool := listContainsSub s.data sub.data

/-- JS `String.prototype.split` with a single-character separator
(every occurrence splits; JS and Lean agree on this semantics). -/
def splitOnChar (sep : Char) (s : String) : List String :=
  (go s.data []).map fun cs => ⟨cs⟩
where
  go : List Char → List Char → List (List Char)
    | [], acc => [acc.reverse]
    | c :: rest, acc =>
      if c = sep then acc.reverse :: go rest [] else go rest (c :: acc)

/-- JS `Array.prototype.join`. -/
def joinSep (sep : String) : List String → String
  | [] => ""
  | [s] => s
  | s :: rest => s ++ sep ++ joinSep sep rest

/-- The characters matched by the regex class `\s` (ASCII part; the
source never feeds non-ASCII whitespace through these code paths). -/
def isJsWs (c : Char) : Bool :=
  c = ' ' || c = Char.ofNat 9 || c = Char.ofNat 10 || c = Char.ofNat 13 ||
  c = Char.ofNat 11 || c = Char.ofNat 12

def isDigitCh (c : Char) : Bool := '0' ≤ c && c ≤ '9'

def digitVal (c : Char) : Nat := c.toNat - '0'.toNat

/-! ## JS numbers: `Option ℚ`, `none` plays `NaN` -/

/-- A JavaScript number: `some q` is the (exact-rational model of a)
finite number, `none` is `NaN`. -/
abbrev JsNum := Option ℚ

/-! Rational arithmetic is routed through `Rat.divInt` on the defining
fields: `Rat.add` and friends are `@[irreducible]`, which blocks the
kernel evaluation every concrete witness needs.  Each operation is
proved equal to the standard one. -/

def qAdd (a b : ℚ) : ℚ :=
  Rat.divInt (a.num * (b.den : ℤ) + b.num * (a.den : ℤ))
    ((a.den : ℤ) * (b.den : ℤ))

def qMul (a b : ℚ) : ℚ :=
  Rat.divInt (a.num * b.num) ((a.den : ℤ) * (b.den : ℤ))

def qSub (a b : ℚ) : ℚ := qAdd a (-b)

def qDiv (a b : ℚ) : ℚ :=
  Rat.divInt (a.num * (b.den : ℤ)) ((a.den : ℤ) * b.num)

theorem qAdd_eq (a b : ℚ) : qAdd a b = a + b := by
  rw [qAdd]
  conv_rhs => rw [← Rat.num_divInt_den a, ← Rat.num_divInt_den b]
  rw [Rat.divInt_add_divInt _ _
    (Int.natCast_ne_zero.mpr a.den_nz) (Int.natCast_ne_zero.mpr b.den_nz)]

theorem qMul_eq (a b : ℚ) : qMul a b = a * b := by
  rw [qMul]
  conv_rhs => rw [← Rat.num_divInt_den a, ← Rat.num_divInt_den b]
  rw [Rat.divInt_mul_divInt _ _
    (Int.natCast_ne_zero.mpr a.den_nz) (Int.natCast_ne_zero.mpr b.den_nz)]

theorem qSub_eq (a b : ℚ) : qSub a b = a - b := by
  rw [qSub, qAdd_eq, sub_eq_add_neg]

theorem qDiv_eq (a b : ℚ) : qDiv a b = a / b := (Rat.div_def' a b).symm

def jsAdd : JsNum → JsNum → JsNum
  | some a, some b => some (qAdd a b)
  | _, _ => none

def jsSub : JsNum → JsNum → JsNum
  | some a, some b => some (qSub a b)
  | _, _ => none

def jsMul : JsNum → JsNum → JsNum
  | some a, some b => some (qMul a b)
  | _, _ => none

/-- Division; the sole division in the modelled code is guarded by a
positivity test, so the `b = 0` (Infinity) case is unreachable and
modelled as `NaN`. -/
def jsDiv : JsNum → JsNum → JsNum
  | some a, some b => if b = 0 then none else some (qDiv a b)
  | _, _ => none

theorem jsAdd_some (a b : ℚ) : jsAdd (some a) (some b) = some (a + b) := by
  simp [jsAdd, qAdd_eq]

/-- JS `>` (false whenever an operand is `NaN`). -/
def jsGtB : JsNum → JsNum → Bool
  | some a, some b => b < a
  | _, _ => false

/-- JS `<` (false whenever an operand is `NaN`). -/
def jsLtB : JsNum → JsNum → Bool
  | some a, some b => a < b
  | _, _ => false

/-- Truthiness of a number (`0` and `NaN` are falsy). -/
def numTruthy : JsNum → Bool
  | some q => q ≠ 0
  | none => false

/-- `x || 0` on numbers. -/
def orZero (x : Option JsNum) : JsNum :=
  match x with
  | some v => if numTruthy v then v else some 0
  | none => some 0

/-- `reduce((sum, x) => sum + x, 0)`. -/
def jsSum (l : List JsNum) : JsNum := l.foldl jsAdd (some 0)

/-! ## Decimal rendering of numbers

JS renders a finite double as its shortest decimal; in the exact model
every number reachable from JSON input has a terminating decimal
expansion, which we print exactly (minimal number of fraction digits,
hence no trailing zeros, as JS prints).  A rational with a
non-terminating expansion (unreachable from double-valued data) is
rendered as `num/den`. -/

/-- Largest `k` with `p^k ∣ n`, together with `n / p^k` (fuel-bounded
by `n`). -/
def factorOut (p : Nat) : Nat → Nat → Nat × Nat
  | 0, n => (0, n)
  | fuel + 1, n =>
    if 2 ≤ p ∧ n % p = 0 ∧ 0 < n then
      let (k, m) := factorOut p fuel (n / p)
      (k + 1, m)
    else (0, n)

def natDigits (n : Nat) : String := Nat.repr n

/-- Render a nonnegative rational `n / 10^k` with exactly `k` fraction
digits (no normalisation; callers pass minimal `k`). -/
def decOfScaled (n : Nat) (k : Nat) : String :=
  if k = 0 then natDigits n
  else
    let ip := n / 10 ^ k
    let fp := n % 10 ^ k
    let fs := natDigits fp
    let pad := List.replicate (k - fs.length) '0'
    natDigits ip ++ "." ++ (⟨pad⟩ : String) ++ fs

/-- Shortest exact decimal rendering of a rational (JS
number-to-string for doubles); nonnegative case. -/
def ratDecNonneg (q : ℚ) : String :=
  let den := q.den
  let (a, r2) := factorOut 2 den den
  let (b, r5) := factorOut 5 r2 r2
  if r5 = 1 then
    let k := max a b
    let n := (q.num * ((10 ^ k : ℕ) : ℤ) / (den : ℤ)).toNat
    decOfScaled n k
  else natDigits q.num.toNat ++ "/" ++ natDigits den

def ratDec (q : ℚ) : String :=
  if q < 0 then "-" ++ ratDecNonneg (-q) else ratDecNonneg q

/-- JS template rendering of a number (`NaN` for `NaN`). -/
def numTemplate : JsNum → String
  | some q => ratDec q
  | none => "NaN"

def decOfScaledFixed (n k : Nat) : String :=
  if k = 0 then natDigits n
  else
    let fs := natDigits (n % 10 ^ k)
    natDigits (n / 10 ^ k) ++ "." ++
      (⟨List.replicate (k - fs.length) '0'⟩ : String) ++ fs

/-- `⌊(n / den) ⬝ 10^d + 1/2⌋` for a nonnegative `n / den`, computed in
`ℕ`: round-half-up of the scaled magnitude. -/
def roundHalfUpScaled (n den d : Nat) : Nat :=
  (n * 10 ^ d * 2 + den) / (2 * den)

/-- `Number.prototype.toFixed(d)`: round the magnitude half-up to `d`
fraction digits (the spec's closest-`n` rule) and always print `d`
digits. -/
def toFixed (d : Nat) : JsNum → String
  | none => "NaN"
  | some q =>
    if q.num < 0 then
      "-" ++ decOfScaledFixed (roundHalfUpScaled (-q.num).toNat q.den d) d
    else
      decOfScaledFixed (roundHalfUpScaled q.num.toNat q.den d) d

/-! ## `parseInt` and `parseFloat` -/

/-- Take a maximal run of decimal digits, returning their value and the
rest (`none` when there is no digit). -/
def takeDigits : List Char → Option (Nat × List Char)
  | cs =>
    let ds := cs.takeWhile isDigitCh
    if ds.isEmpty then none
    else some (ds.foldl (fun acc c => acc * 10 + digitVal c) 0, cs.dropWhile isDigitCh)

/-- JS `parseInt(s)` (radix-10 path: skip whitespace, optional sign,
maximal digit run; `NaN` when no digit; the `0x` hex form is not
modelled, no date component ever takes it). -/
def jsParseInt (s : String) : Option Int :=
  let cs := s.data.dropWhile isJsWs
  match cs with
  | '-' :: rest => (takeDigits rest).map fun (n, _) => -(n : Int)
  | '+' :: rest => (takeDigits rest).map fun (n, _) => (n : Int)
  | rest => (takeDigits rest).map fun (n, _) => (n : Int)

def qPow10 (n : Nat) : ℚ := ((10 ^ n : ℕ) : ℚ)

/-- Digits of a fraction part as value and length. -/
def fracVal (cs : List Char) : ℚ × Nat :=
  let ds := cs.takeWhile isDigitCh
  (Rat.divInt ((ds.foldl (fun acc c => acc * 10 + digitVal c) 0 : ℕ) : ℤ)
     (((10 ^ ds.length : ℕ) : ℤ)), ds.length)

/-- JS `parseFloat` on a string: skip whitespace, optional sign, a
decimal significand `digits[.digits]` or `.digits`, optional exponent.
`NaN` when no digit is found (the `Infinity` literal is not modelled;
no reachable input produces it). -/
def parseFloatStr (s : String) : JsNum :=
  let cs := s.data.dropWhile isJsWs
  match cs with
  | '-' :: rest => (core rest).map Neg.neg
  | '+' :: rest => core rest
  | rest => core rest
where
  expPart (q : ℚ) (cs : List Char) : ℚ :=
    match cs with
    | 'e' :: rest => applyExp q rest
    | 'E' :: rest => applyExp q rest
    | _ => q
  applyExp (q : ℚ) (cs : List Char) : ℚ :=
    match cs with
    | '-' :: rest => match takeDigits rest with
      | some (n, _) => qDiv q (qPow10 n)
      | none => q
    | '+' :: rest => match takeDigits rest with
      | some (n, _) => qMul q (qPow10 n)
      | none => q
    | rest => match takeDigits rest with
      | some (n, _) => qMul q (qPow10 n)
      | none => q
  core (cs : List Char) : JsNum :=
    match takeDigits cs with
    | some (ip, rest) =>
      match rest with
      | '.' :: rest2 =>
        let (fv, _) := fracVal rest2
        some (expPart (qAdd (ip : ℚ) fv) (rest2.dropWhile isDigitCh))
      | _ => some (expPart (ip : ℚ) rest)
    | none =>
      match cs with
      | '.' :: rest2 =>
        let ds := rest2.takeWhile isDigitCh
        if ds.isEmpty then none
        else
          let (fv, _) := fracVal rest2
          some (expPart fv (rest2.dropWhile isDigitCh))
      | _ => none

/-! ## JavaScript values (the image of `JSON.parse`) -/

/-- A JavaScript value as produced by `JSON.parse` (plus `NaN` inside
`num`, since parsed numbers flow into JS arithmetic). -/
inductive Js where
  | jsNull : Js
  | jsBool : Bool → Js
  | num : JsNum → Js
  | str : String → Js
  | arr : List Js → Js
  | obj : List (String × Js) → Js
deriving Repr

mutual

def jsBEq : Js → Js → Bool
  | .jsNull, .jsNull => true
  | .jsBool a, .jsBool b => a = b
  | .num a, .num b => a = b
  | .str a, .str b => a = b
  | .arr a, .arr b => jsListBEq a b
  | .obj a, .obj b => jsFieldsBEq a b
  | _, _ => false

def jsListBEq : List Js → List Js → Bool
  | [], [] => true
  | a :: l, b :: m => jsBEq a b && jsListBEq l m
  | _, _ => false

def jsFieldsBEq : List (String × Js) → List (String × Js) → Bool
  | [], [] => true
  | (k, a) :: l, (k', b) :: m => k = k' && jsBEq a b && jsFieldsBEq l m
  | _, _ => false

end

mutual

theorem jsBEq_refl : ∀ v : Js, jsBEq v v = true
  | .jsNull => rfl
  | .jsBool b => by simp [jsBEq]
  | .num a => by simp [jsBEq]
  | .str a => by simp [jsBEq]
  | .arr l => by simp [jsBEq, jsListBEq_refl l]
  | .obj l => by simp [jsBEq, jsFieldsBEq_refl l]

theorem jsListBEq_refl : ∀ l : List Js, jsListBEq l l = true
  | [] => rfl
  | a :: l => by simp [jsListBEq, jsBEq_refl a, jsListBEq_refl l]

theorem jsFieldsBEq_refl : ∀ l : List (String × Js), jsFieldsBEq l l = true
  | [] => rfl
  | (k, a) :: l => by simp [jsFieldsBEq, jsBEq_refl a, jsFieldsBEq_refl l]

end

mutual

theorem jsBEq_eq : ∀ a b : Js, jsBEq a b = true → a = b
  | .jsNull, .jsNull, _ => rfl
  | .jsBool x, .jsBool y, h => by simpa [jsBEq] using congrArg Js.jsBool (by simpa [jsBEq] using h)
  | .num x, .num y, h => by
    have : x = y := by simpa [jsBEq] using h
    rw [this]
  | .str x, .str y, h => by
    have : x = y := by simpa [jsBEq] using h
    rw [this]
  | .arr x, .arr y, h => by
    have : x = y := jsListBEq_eq x y (by simpa [jsBEq] using h)
    rw [this]
  | .obj x, .obj y, h => by
    have : x = y := jsFieldsBEq_eq x y (by simpa [jsBEq] using h)
    rw [this]
  | .jsNull, .jsBool _, h => by simp [jsBEq] at h
  | .jsNull, .num _, h => by simp [jsBEq] at h
  | .jsNull, .str _, h => by simp [jsBEq] at h
  | .jsNull, .arr _, h => by simp [jsBEq] at h
  | .jsNull, .obj _, h => by simp [jsBEq] at h
  | .jsBool _, .jsNull, h => by simp [jsBEq] at h
  | .jsBool _, .num _, h => by simp [jsBEq] at h
  | .jsBool _, .str _, h => by simp [jsBEq] at h
  | .jsBool _, .arr _, h => by simp [jsBEq] at h
  | .jsBool _, .obj _, h => by simp [jsBEq] at h
  | .num _, .jsNull, h => by simp [jsBEq] at h
  | .num _, .jsBool _, h => by simp [jsBEq] at h
  | .num _, .str _, h => by simp [jsBEq] at h
  | .num _, .arr _, h => by simp [jsBEq] at h
  | .num _, .obj _, h => by simp [jsBEq] at h
  | .str _, .jsNull, h => by simp [jsBEq] at h
  | .str _, .jsBool _, h => by simp [jsBEq] at h
  | .str _, .num _, h => by simp [jsBEq] at h
  | .str _, .arr _, h => by simp [jsBEq] at h
  | .str _, .obj _, h => by simp [jsBEq] at h
  | .arr _, .jsNull, h => by simp [jsBEq] at h
  | .arr _, .jsBool _, h => by simp [jsBEq] at h
  | .arr _, .num _, h => by simp [jsBEq] at h
  | .arr _, .str _, h => by simp [jsBEq] at h
  | .arr _, .obj _, h => by simp [jsBEq] at h
  | .obj _, .jsNull, h => by simp [jsBEq] at h
  | .obj _, .jsBool _, h => by simp [jsBEq] at h
  | .obj _, .num _, h => by simp [jsBEq] at h
  | .obj _, .str _, h => by simp [jsBEq] at h
  | .obj _, .arr _, h => by simp [jsBEq] at h

theorem jsListBEq_eq : ∀ a b : List Js, jsListBEq a b = true → a = b
  | [], [], _ => rfl
  | x :: l, y :: m, h => by
    have h1 : jsBEq x y = true ∧ jsListBEq l m = true := by simpa [jsListBEq] using h
    rw [jsBEq_eq x y h1.1, jsListBEq_eq l m h1.2]
  | [], _ :: _, h => by simp [jsListBEq] at h
  | _ :: _, [], h => by simp [jsListBEq] at h

theorem jsFieldsBEq_eq : ∀ a b : List (String × Js), jsFieldsBEq a b = true → a = b
  | [], [], _ => rfl
  | (k, x) :: l, (k', y) :: m, h => by
    have h1 : (k = k' ∧ jsBEq x y = true) ∧ jsFieldsBEq l m = true := by
      simpa [jsFieldsBEq, and_assoc] using h
    rw [h1.1.1, jsBEq_eq x y h1.1.2, jsFieldsBEq_eq l m h1.2]
  | [], _ :: _, h => by simp [jsFieldsBEq] at h
  | _ :: _, [], h => by simp [jsFieldsBEq] at h

end

instance : DecidableEq Js := fun a b =>
  if h : jsBEq a b = true then .isTrue (jsBEq_eq a b h)
  else .isFalse (fun he => h (he ▸ jsBEq_refl a))

/-- Last-wins field lookup, as `JSON.parse` keeps the last duplicate
key and property access reads that survivor. -/
def jsField (fields : List (String × Js)) (k : String) : Option Js :=
  match fields.reverse.find? (fun f => f.1 = k) with
  | some f => some f.2
  | none => none

/-- Property access `v[k]` restricted to objects (`none` models
`undefined`). -/
def jsGet (v : Js) (k : String) : Option Js :=
  match v with
  | .obj fields => jsField fields k
  | _ => none

/-- JS truthiness. -/
def jsTruthy : Js → Bool
  | .jsNull => false
  | .jsBool b => b
  | .num n => numTruthy n
  | .str s => s ≠ ""
  | .arr _ => true
  | .obj _ => true

/-- Template-literal rendering `${v}` of a value (array and object
renderings follow JS `String()`; they are never exercised by the
verified properties). -/
def jsTemplateStr : Js → String
  | .jsNull => "null"
  | .jsBool true => "true"
  | .jsBool false => "false"
  | .num n => numTemplate n
  | .str s => s
  | .arr _ => ""
  | .obj _ => "[object Object]"

/-- Rendering of a possibly-`undefined` value, as `${x}` renders the
`undefined` of a missing field. -/
def jsTemplateOpt : Option Js → String
  | some v => jsTemplateStr v
  | none => "undefined"

/-- `parseFloat(x)` on an arbitrary JS value: numbers pass through
(string round-trip of the exact model is the identity), strings are
parsed, everything else stringifies to a digit-free text and yields
`NaN` (array corner cases such as `parseFloat(["5"])` are not
modelled; nothing reachable produces them). -/
def parseFloatJs : Option Js → JsNum
  | some (.num n) => n
  | some (.str s) => parseFloatStr s
  | _ => none

/-! ## Insertion-ordered records (`Record<string, T>`) -/

def recGet (l : List (String × α)) (k : String) : Option α :=
  match l.find? (fun e => e.1 = k) with
  | some e => some e.2
  | none => none

/-- Update-or-append preserving first-insertion order, as JS object
assignment does. -/
def recPut (l : List (String × α)) (k : String) (v : α) : List (String × α) :=
  match l with
  | [] => [(k, v)]
  | e :: rest => if e.1 = k then (k, v) :: rest else e :: recPut rest k v

/-- `acc[key] = (acc[key] || 0) + amount` — the accumulation pattern
every breakdown in the source uses. -/
def accumAmount (l : List (String × JsNum)) (k : String) (amt : JsNum) :
    List (String × JsNum) :=
  recPut l k (jsAdd (orZero (recGet l k)) amt)

/-! ## `JSON.parse` and `JSON.stringify`

A fuel-bounded recursive-descent reader of the JSON grammar; `none`
models a thrown `SyntaxError`.  Numbers are read exactly into `ℚ`. -/

/-- Is `c` one of the six hex letters starting at `lo` (`a`–`f` for
`lo = a`, `A`–`F` for `lo = A`)? -/
def hexLetterFrom (lo c : Char) : Bool :=
  lo ≤ c && c.toNat ≤ lo.toNat + 5

def hexVal (c : Char) : Option Nat :=
  if isDigitCh c then some (digitVal c)
  else if hexLetterFrom 'a' c then some (c.toNat + 10 - 'a'.toNat)
  else if hexLetterFrom 'A' c then some (c.toNat + 10 - 'A'.toNat)
  else none

/-- Read the body of a JSON string literal (opening quote consumed).
`\uXXXX` maps the code unit to the corresponding character (surrogate
pairing is not modelled; no input in this development uses it). -/
def readStrBody : Nat → List Char → Option (List Char × List Char)
  | 0, _ => none
  | _ + 1, [] => none
  | fuel + 1, c :: rest =>
    if c = qch then some ([], rest)
    else if c = bsl then
      match rest with
      | [] => none
      | e :: rest2 =>
        let esc : Option Char :=
          if e = qch then some qch
          else if e = bsl then some bsl
          else if e = '/' then some '/'
          else if e = 'b' then some (Char.ofNat 8)
          else if e = 'f' then some (Char.ofNat 12)
          else if e = 'n' then some (Char.ofNat 10)
          else if e = 'r' then some (Char.ofNat 13)
          else if e = 't' then some (Char.ofNat 9)
          else none
        match esc with
        | some ch =>
          match readStrBody fuel rest2 with
          | some (s, rem) => some (ch :: s, rem)
          | none => none
        | none =>
          if e = 'u' then
            match rest2 with
            | h1 :: h2 :: h3 :: h4 :: rest3 =>
              match hexVal h1, hexVal h2, hexVal h3, hexVal h4 with
              | some a, some b, some c', some d =>
                match readStrBody fuel rest3 with
                | some (s, rem) =>
                  some (Char.ofNat (((a * 16 + b) * 16 + c') * 16 + d) :: s, rem)
                | none => none
              | _, _, _, _ => none
            | _ => none
          else none
    else
      match readStrBody fuel rest with
      | some (s, rem) => some (c :: s, rem)
      | none => none

/-- JSON number after an optional leading minus sign: integer part
(`0` or a nonzero-led digit run), optional fraction, optional
exponent. -/
def readNumBody (cs : List Char) : Option (ℚ × List Char) :=
  match takeDigits cs with
  | none => none
  | some (ip, rest) =>
    let ds := cs.takeWhile isDigitCh
    if 2 ≤ ds.length ∧ ds.headI = '0' then none
    else
      let (mant, rest2) :=
        match rest with
        | '.' :: r =>
          let fds := r.takeWhile isDigitCh
          if fds.isEmpty then ((ip : ℚ), rest)
          else
            let (fv, _) := fracVal r
            (qAdd (ip : ℚ) fv, r.dropWhile isDigitCh)
        | _ => ((ip : ℚ), rest)
      match rest2 with
      | e :: r =>
        if e = 'e' ∨ e = 'E' then
          match r with
          | '-' :: r2 =>
            match takeDigits r2 with
            | some (n, r3) => some (qDiv mant (qPow10 n), r3)
            | none => none
          | '+' :: r2 =>
            match takeDigits r2 with
            | some (n, r3) => some (qMul mant (qPow10 n), r3)
            | none => none
          | r2 =>
            match takeDigits r2 with
            | some (n, r3) => some (qMul mant (qPow10 n), r3)
            | none => none
        else some (mant, rest2)
      | [] => some (mant, rest2)

mutual

/-- Parse one JSON value after leading whitespace. -/
def readVal : Nat → List Char → Option (Js × List Char)
  | 0, _ => none
  | fuel + 1, cs =>
    let cs := cs.dropWhile isJsWs
    match cs with
    | [] => none
    | c :: rest =>
      if c = obr then readMembers fuel (rest.dropWhile isJsWs) true []
      else if c = '[' then readElems fuel (rest.dropWhile isJsWs) true []
      else if c = qch then
        match readStrBody (fuel + 1) rest with
        | some (s, rem) => some (.str ⟨s⟩, rem)
        | none => none
      else if c = '-' then
        match readNumBody rest with
        | some (q, rem) => some (.num (some (-q)), rem)
        | none => none
      else if isDigitCh c then
        match readNumBody cs with
        | some (q, rem) => some (.num (some q), rem)
        | none => none
      else if listStartsWith cs "true".data then some (.jsBool true, cs.drop 4)
      else if listStartsWith cs "false".data then some (.jsBool false, cs.drop 5)
      else if listStartsWith cs "null".data then some (.jsNull, cs.drop 4)
      else none

/-- Object members; `first` is true before the first member. -/
def readMembers : Nat → List Char → Bool → List (String × Js) →
    Option (Js × List Char)
  | 0, _, _, _ => none
  | fuel + 1, cs, first, acc =>
    match cs with
    | [] => none
    | c :: rest =>
      if c = cbr ∧ first then some (.obj acc.reverse, rest)
      else
        match readStrBody (fuel + 1) (if c = qch then rest else []) with
        | none => none
        | some (key, afterKey) =>
          if c ≠ qch then none
          else
            match afterKey.dropWhile isJsWs with
            | ':' :: afterColon =>
              match readVal fuel afterColon with
              | none => none
              | some (v, rem) =>
                match rem.dropWhile isJsWs with
                | ',' :: rem2 =>
                  readMembers fuel (rem2.dropWhile isJsWs) false
                    ((⟨key⟩, v) :: acc)
                | d :: rem2 =>
                  if d = cbr then some (.obj ((⟨key⟩, v) :: acc).reverse, rem2)
                  else none
                | [] => none
            | _ => none

/-- Array elements. -/
def readElems : Nat → List Char → Bool → List Js → Option (Js × List Char)
  | 0, _, _, _ => none
  | fuel + 1, cs, first, acc =>
    match cs with
    | [] => none
    | c :: rest =>
      if c = ']' ∧ first then some (.arr acc.reverse, rest)
      else
        match readVal fuel cs with
        | none => none
        | some (v, rem) =>
          match rem.dropWhile isJsWs with
          | ',' :: rem2 => readElems fuel rem2 false (v :: acc)
          | ']' :: rem2 => some (.arr (v :: acc).reverse, rem2)
          | _ => none

end

/-- `JSON.parse` (`none` = thrown `SyntaxError`). -/
def jsonParse (s : String) : Option Js :=
  match readVal (s.length + 1) s.data with
  | some (v, rem) => if (rem.dropWhile isJsWs).isEmpty then some v else none
  | none => none

/-- Escape a string for `JSON.stringify`. -/
def jsonEscape (s : String) : String :=
  ⟨s.data.foldr (fun c acc =>
    if c = qch then bsl :: qch :: acc
    else if c = bsl then bsl :: bsl :: acc
    else if c = Char.ofNat 10 then bsl :: 'n' :: acc
    else if c = Char.ofNat 13 then bsl :: 'r' :: acc
    else if c = Char.ofNat 9 then bsl :: 't' :: acc
    else if c.toNat < 32 then
      bsl :: 'u' :: '0' :: '0' ::
        (Nat.toDigits 16 c.toNat).reverse.headI ::
        [(Nat.toDigits 16 (c.toNat / 16)).reverse.headI] ++ acc
    else c :: acc) []⟩

mutual

/-- `JSON.stringify` (on the values this system produces; `NaN`
stringifies to `null` as in JS). -/
def jsonStringify : Js → String
  | .jsNull => "null"
  | .jsBool true => "true"
  | .jsBool false => "false"
  | .num none => "null"
  | .num (some q) => ratDec q
  | .str s => (⟨[qch]⟩ : String) ++ jsonEscape s ++ (⟨[qch]⟩ : String)
  | .arr l => "[" ++ stringifyList l ++ "]"
  | .obj l => (⟨[obr]⟩ : String) ++ stringifyFields l ++ (⟨[cbr]⟩ : String)

def stringifyList : List Js → String
  | [] => ""
  | [v] => jsonStringify v
  | v :: rest => jsonStringify v ++ "," ++ stringifyList rest

def stringifyFields : List (String × Js) → String
  | [] => ""
  | [(k, v)] => (⟨[qch]⟩ : String) ++ jsonEscape k ++ (⟨[qch]⟩ : String) ++ ":" ++ jsonStringify v
  | (k, v) :: rest =>
    (⟨[qch]⟩ : String) ++ jsonEscape k ++ (⟨[qch]⟩ : String) ++ ":" ++ jsonStringify v ++ "," ++
      stringifyFields rest

end

/-! ## Calendar arithmetic

Civil-calendar/day-count conversions (standard era-based integer
algorithm), used for `Date` timestamps, `toISOString` and
`toLocaleDateString`.  All reachable dates have year ≥ 1, so the
computation stays in `ℕ`. -/

/-- Days from 1970-01-01 (may be negative) for a civil date with
year ≥ 1; months are 1-based. -/
def daysFromCivil (y m d : Nat) : Int :=
  let y' := if m ≤ 2 then y - 1 else y
  let era := y' / 400
  let yoe := y' % 400
  let mp := if 2 < m then m - 3 else m + 9
  let doy := (153 * mp + 2) / 5 + (d - 1)
  let doe := yoe * 365 + yoe / 4 - yoe / 100 + doy
  (era * 146097 + doe : Int) - 719468

/-- Civil date `(y, m, d)` of a day count from 1970-01-01 (clamped to
the common era; nothing reachable predates it). -/
def civilFromDays (z : Int) : Nat × Nat × Nat :=
  let z' := (z + 719468).toNat
  let era := z' / 146097
  let doe := z' % 146097
  let yoe := (doe - doe / 1460 + doe / 36524 - doe / 146096) / 365
  let doy := doe - (365 * yoe + yoe / 4 - yoe / 100)
  let mp := (5 * doy + 2) / 153
  let d := doy - (153 * mp + 2) / 5 + 1
  let m := if mp < 10 then mp + 3 else mp - 9
  let y := yoe + era * 400 + (if m ≤ 2 then 1 else 0)
  (y, m, d)

def isLeapYear (y : Nat) : Bool := y % 4 = 0 && (y % 100 ≠ 0 || y % 400 = 0)

def daysInMonth (y m : Nat) : Nat :=
  if m = 2 then (if isLeapYear y then 29 else 28)
  else if m = 4 ∨ m = 6 ∨ m = 9 ∨ m = 11 then 30
  else 31

def allDigits (s : String) : Bool := s.data.all isDigitCh

def digitsToNat (s : String) : Nat :=
  s.data.foldl (fun acc c => acc * 10 + digitVal c) 0

/-- Strict `YYYY-MM-DD` reading (the only date-string shape the JS
`Date` ISO parser accepts from this system); validates the calendar. -/
def parseIsoDate (s : String) : Option (Nat × Nat × Nat) :=
  match splitOnChar '-' s with
  | [ys, ms, ds] =>
    if ys.length = 4 ∧ ms.length = 2 ∧ ds.length = 2 ∧
       allDigits ys ∧ allDigits ms ∧ allDigits ds then
      let y := digitsToNat ys
      let m := digitsToNat ms
      let d := digitsToNat ds
      if 1 ≤ m ∧ m ≤ 12 ∧ 1 ≤ d ∧ d ≤ daysInMonth y m then some (y, m, d)
      else none
    else none
  | _ => none

def monthNamesLong : List String :=
  ["January", "February", "March", "April", "May", "June",
   "July", "August", "September", "October", "November", "December"]

def monthNamesShort : List String :=
  ["Jan", "Feb", "Mar", "Apr", "May", "Jun", "Jul", "Aug", "Sep", "Oct", "Nov", "Dec"]

def weekdayNames : List String :=
  ["Sunday", "Monday", "Tuesday", "Wednesday", "Thursday", "Friday", "Saturday"]

/-- `new Date(date + 'T00:00:00Z').toLocaleDateString('en-US',
{weekday:'long', year:'numeric', month:'long', day:'numeric',
timeZone:'UTC'})`. -/
def formatDateLong (s : String) : String :=
  match parseIsoDate s with
  | none => "Invalid Date"
  | some (y, m, d) =>
    let dow := ((daysFromCivil y m d + 4) % 7).toNat
    (weekdayNames.getD dow "") ++ ", " ++ (monthNamesLong.getD (m - 1) "") ++
      " " ++ natDigits d ++ ", " ++ natDigits y

def padNat (w n : Nat) : String :=
  let s := natDigits n
  (⟨List.replicate (w - s.length) '0'⟩ : String) ++ s

/-- `new Date(ms).toISOString().split('T')[0]` (the day index is the
floor of `ms / 86400000`, computed by floor division on the defining
fields). -/
def isoDateOfMs (q : ℚ) : String :=
  let (y, m, d) := civilFromDays (Int.fdiv q.num ((q.den : ℤ) * 86400000))
  padNat 4 y ++ "-" ++ padNat 2 m ++ "-" ++ padNat 2 d

/-- `new Date(dateStr + 'T12:00:00').getTime()` (`NaN` when the date
string is not a valid ISO date; local time modelled as UTC — the
timestamp is never read back by any verified property). -/
def tsOfDateNoon (s : String) : JsNum :=
  match parseIsoDate s with
  | some (y, m, d) => some ((daysFromCivil y m d * 86400000 + 43200000 : Int) : ℚ)
  | none => none

/-! ## Data model and store -/

/-- A stored transaction.  The record fields carry the types the
specification's data model gives them (`§3`); directive-created
records with non-string field values are stored through their JS
string rendering (see `handleAddTransaction`).  A missing `date` is
the empty string (falsy, like `undefined`, in every guard the source
applies to it). -/
structure Transaction where
  id : String
  amount : JsNum
  description : String
  category : String
  type : String
  date : String
  timestamp : JsNum
deriving Repr, DecidableEq

structure ConversationMessage where
  role : String
  content : String
  timestamp : Int
deriving Repr, DecidableEq

structure Conversation where
  id : String
  messages : List ConversationMessage
  startTime : Int
  lastUpdated : Int
deriving Repr, DecidableEq

/-- The durable-object storage: keys `transactions`, `budgets`,
`conversations`. -/
structure Store where
  transactions : List Transaction
  budgets : List (String × JsNum)
  conversations : List (String × Conversation)
deriving Repr, DecidableEq

def emptyStore : Store := ⟨[], [], []⟩

/-- Ambient time, threaded explicitly: `new Date()` projections used
by the handlers. -/
structure Clock where
  today : String
  currentYear : Int
  currentYearMonth : String
deriving Repr, DecidableEq

structure FunctionCall where
  name : String
  arguments : String
deriving Repr, DecidableEq

structure FunctionResult where
  success : Bool
  data : Option Js := none
  message : String
  action : Option String := none
deriving Repr, DecidableEq

/-! ## Conversation memory (`saveMessage`, `loadConversation`) -/

/-- `slice(-n)`: the most recent `n` elements. -/
def takeLast (n : Nat) (l : List α) : List α := l.drop (l.length - n)

/-- `saveMessage(role, content, conversationId)` at instant `now`. -/
def saveMessage (st : Store) (role content convId : String) (now : Int) : Store :=
  let conv0 :=
    match recGet st.conversations convId with
    | some c => c
    | none => { id := convId, messages := [], startTime := now, lastUpdated := now }
  let msgs1 := conv0.messages ++ [⟨role, content, now⟩]
  let msgs2 := if 50 < msgs1.length then takeLast 50 msgs1 else msgs1
  { st with conversations :=
      recPut st.conversations convId { conv0 with messages := msgs2, lastUpdated := now } }

/-- `loadConversation`. -/
def loadConversation (st : Store) (convId : String) : List ConversationMessage :=
  match recGet st.conversations convId with
  | some c => c.messages
  | none => []

/-! ## Month-name tables -/

/-- The month map of `handleGetSpendingSummary` (full names only). -/
def monthMapFull : String → Option Nat
  | "january" => some 0
  | "february" => some 1
  | "march" => some 2
  | "april" => some 3
  | "may" => some 4
  | "june" => some 5
  | "july" => some 6
  | "august" => some 7
  | "september" => some 8
  | "october" => some 9
  | "november" => some 10
  | "december" => some 11
  | _ => none

/-- The month map of `calculateMonthlySpending` /
`calculateDailySpending` (full names and abbreviations). -/
def monthMapAbbrev : String → Option Nat
  | "january" => some 0
  | "jan" => some 0
  | "february" => some 1
  | "feb" => some 1
  | "march" => some 2
  | "mar" => some 2
  | "april" => some 3
  | "apr" => some 3
  | "may" => some 4
  | "june" => some 5
  | "jun" => some 5
  | "july" => some 6
  | "jul" => some 6
  | "august" => some 7
  | "aug" => some 7
  | "september" => some 8
  | "sep" => some 8
  | "sept" => some 8
  | "october" => some 9
  | "oct" => some 9
  | "november" => some 10
  | "nov" => some 10
  | "december" => some 11
  | "dec" => some 11
  | _ => none

/-! ## Date-string projections shared by the filters -/

def txDateParts (t : Transaction) : List String := splitOnChar '-' t.date

/-- `parseInt(t.date.split('-')[0])`. -/
def txYearOf (t : Transaction) : Option Int :=
  jsParseInt ((txDateParts t).getD 0 "")

/-- `parseInt(t.date.split('-')[1]) - 1`. -/
def txMonth0Of (t : Transaction) : Option Int :=
  (jsParseInt ((txDateParts t).getD 1 "undefined")).map (fun m => m - 1)

/-- The month/year test every month filter applies after its `!t.date`
guard: date present, 0-based month equals `tm`, year equals `cy`
(`NaN` components compare unequal). -/
def monthDatePred (cy : Int) (tm : Nat) (t : Transaction) : Bool :=
  t.date ≠ "" && txMonth0Of t == some (tm : Int) && txYearOf t == some cy

/-! ## Function-call handlers

Each handler returns `Except String (FunctionResult × Store)`; a
`.error` is a thrown JS exception (its host-defined text is modelled
by a fixed descriptor — no verified property reads it), caught by
`executeFunction`'s `try`/`catch`.  Every throw in the source happens
before the handler's `storage.put`, so a thrown handler never
mutates. -/

def txToJs (t : Transaction) : Js :=
  .obj [("id", .str t.id), ("amount", .num t.amount),
        ("description", .str t.description), ("category", .str t.category),
        ("type", .str t.type), ("date", .str t.date),
        ("timestamp", .num t.timestamp)]

/-- `handleAddTransaction`.  No argument validation happens here: the
raw `amount` is `parseFloat`ed, `description`/`category`/`type` are
stored as given (non-string JS values through their string
rendering), and the record is appended unconditionally. -/
def handleAddTransaction (clock : Clock) (uuid : String) (st : Store)
    (args : Js) : Except String (FunctionResult × Store) :=
  if args = .jsNull then .error "TypeError: cannot destructure null" else
  let amountV := jsGet args "amount"
  let descV := jsGet args "description"
  let catV := jsGet args "category"
  let typeV := jsGet args "type"
  let dateV := jsGet args "date"
  -- const transactionDate = date || today
  let transactionDate : String :=
    match dateV with
    | some v => if jsTruthy v then jsTemplateStr v else clock.today
    | none => clock.today
  let tx : Transaction :=
    { id := uuid, amount := parseFloatJs amountV,
      description := jsTemplateOpt descV, category := jsTemplateOpt catV,
      type := jsTemplateOpt typeV, date := transactionDate,
      timestamp := tsOfDateNoon transactionDate }
  .ok ({ success := true, data := some (txToJs tx),
         message := "Added " ++ jsTemplateOpt typeV ++ " of $" ++
           jsTemplateOpt amountV ++ " for " ++ (⟨[qch]⟩ : String) ++
           jsTemplateOpt descV ++ (⟨[qch]⟩ : String) ++ " in " ++
           jsTemplateOpt catV ++ " category",
         action := some (jsTemplateOpt typeV ++ "_added") },
       { st with transactions := st.transactions ++ [tx] })

/-- `handleSetBudget`: no validation either — any category key, any
`parseFloat`ed amount. -/
def handleSetBudget (st : Store) (args : Js) :
    Except String (FunctionResult × Store) :=
  if args = .jsNull then .error "TypeError: cannot destructure null" else
  let catV := jsGet args "category"
  let amtV := jsGet args "amount"
  let catKey := jsTemplateOpt catV   -- JS object-key coercion
  let oldBudget := orZero (recGet st.budgets catKey)
  .ok ({ success := true,
         data := some (.obj [("category", catV.getD .jsNull),
                             ("amount", amtV.getD .jsNull),
                             ("oldBudget", .num oldBudget)]),
         message := "Budget for " ++ jsTemplateOpt catV ++ " " ++
           (if jsGtB oldBudget (some 0)
            then "updated from $" ++ numTemplate oldBudget ++ " to"
            else "set to") ++ " $" ++ jsTemplateOpt amtV ++ "/month" },
       { st with budgets := recPut st.budgets catKey (parseFloatJs amtV) })

/-- `handleGetSpendingSummary`. -/
def handleGetSpendingSummary (clock : Clock) (st : Store) (args : Js) :
    Except String (FunctionResult × Store) :=
  if args = .jsNull then .error "TypeError: cannot destructure null" else
  let catV := jsGet args "category"
  let monthV := jsGet args "month"
  let f0 := st.transactions.filter (fun t => t.type == "expense")
  -- if (category && category !== 'all')
  let f1 :=
    match catV with
    | some v =>
      if jsTruthy v ∧ v ≠ .str "all" then
        match v with
        | .str s => f0.filter (fun t => t.category == s)
        | _ => f0.filter (fun _ => false)   -- `t.category === v` on a non-string
      else f0
    | none => f0
  -- if (month && month !== 'current'), with month.toLowerCase()
  match monthV with
  | some v =>
    if jsTruthy v ∧ v ≠ .str "current" then
      match v with
      | .str s =>
        let f2 :=
          match monthMapFull (lcStr s) with
          | some tm => f1.filter (monthDatePred clock.currentYear tm)
          | none => f1
        .ok (summaryResult catV monthV f2)
      | _ => .error "TypeError: toLowerCase is not a function"
    else .ok (summaryResult catV monthV f1)
  | none => .ok (summaryResult catV monthV f1)
where
  summaryResult (catV monthV : Option Js) (filtered : List Transaction) :
      FunctionResult × Store :=
    let total := jsSum (filtered.map (fun t => t.amount))
    let count := filtered.length
    let breakdown := filtered.foldl
      (fun acc t => accumAmount acc t.category t.amount) []
    ({ success := true,
       data := some (.obj
         [("total", .num total), ("count", .num (some (count : ℚ))),
          ("category", match catV with
            | some v => if jsTruthy v then v else .str "all"
            | none => .str "all"),
          ("month", match monthV with
            | some v => if jsTruthy v then v else .str "all time"
            | none => .str "all time"),
          ("breakdown", .obj (breakdown.map (fun e => (e.1, Js.num e.2)))),
          ("transactions", .arr ((takeLast 5 filtered).map txToJs))]),
       message := "Found " ++ natDigits count ++
         " transaction(s) totaling $" ++ toFixed 2 total }, st)

/-- `handleGetBudgetStatus` (takes no arguments; `executeFunction`
passes none). -/
def handleGetBudgetStatus (clock : Clock) (st : Store) :
    Except String (FunctionResult × Store) :=
  let monthly := (st.transactions.filter (fun t =>
      t.type == "expense" && t.date ≠ "" &&
        strStartsWith t.date clock.currentYearMonth)).foldl
    (fun acc t => accumAmount acc t.category t.amount) []
  let entries := st.budgets.map (fun e =>
    let budget := e.2
    let spent := orZero (recGet monthly e.1)
    let percentage :=
      if jsGtB budget (some 0) then jsMul (jsDiv spent budget) (some 100)
      else some 0
    let remaining := jsSub budget spent
    let statusStr :=
      if jsGtB spent budget then "over"
      else if jsGtB spent (jsMul budget (some (9/10 : ℚ))) then "warning"
      else "good"
    (e.1, Js.obj [("budget", .num budget), ("spent", .num spent),
                  ("remaining", .num remaining),
                  ("percentage", .str (toFixed 1 percentage)),
                  ("status", .str statusStr)]))
  let overBudget := (st.budgets.filter (fun e =>
    jsGtB (orZero (recGet monthly e.1)) e.2)).map (fun e => e.1)
  let underBudget := (st.budgets.filter (fun e =>
    !jsGtB (orZero (recGet monthly e.1)) e.2 &&
      jsLtB (orZero (recGet monthly e.1)) (jsMul e.2 (some (4/5 : ℚ))))).map
    (fun e => e.1)
  .ok ({ success := true,
         data := some (.obj
           [("status", .obj entries),
            ("overBudget", .arr (overBudget.map Js.str)),
            ("underBudget", .arr (underBudget.map Js.str)),
            ("totalBudget", .num (jsSum (st.budgets.map (fun e => e.2)))),
            ("totalSpent", .num (jsSum (monthly.map (fun e => e.2))))]),
         message := "Budget status: " ++ natDigits overBudget.length ++
           " over budget, " ++ natDigits underBudget.length ++
           " under budget" }, st)

/-- `findIndex` + `splice(index, 1)` fused: the first record matching
`p` together with the list without it. -/
def deleteFirst (p : Transaction → Bool) :
    List Transaction → Option (Transaction × List Transaction)
  | [] => none
  | t :: rest =>
    if p t then some (t, rest)
    else (deleteFirst p rest).map (fun dl => (dl.1, t :: dl.2))

/-- `handleDeleteTransaction`: case-insensitive substring match on the
description, first match removed. -/
def handleDeleteTransaction (st : Store) (args : Js) :
    Except String (FunctionResult × Store) :=
  if args = .jsNull then .error "TypeError: cannot destructure null" else
  match jsGet args "description" with
  | some (.str s) =>
    match deleteFirst (fun t => strIncludes (lcStr t.description) (lcStr s))
        st.transactions with
    | none =>
      .ok ({ success := false,
             message := "No transaction found matching " ++ (⟨[qch]⟩ : String) ++
               s ++ (⟨[qch]⟩ : String) }, st)
    | some (deleted, rest) =>
      .ok ({ success := true, data := some (txToJs deleted),
             message := "Deleted transaction: " ++ deleted.description ++
               " ($" ++ numTemplate deleted.amount ++ ")" },
           { st with transactions := rest })
  | _ => .error "TypeError: toLowerCase is not a function"

/-- `executeFunction`: `JSON.parse` the argument string, dispatch on
the action name; any throw (parse failure or handler exception) is
caught and reported as a failed result with the store untouched.  No
schema validation occurs anywhere on this path. -/
def executeFunction (clock : Clock) (uuid : String) (st : Store)
    (fc : FunctionCall) : FunctionResult × Store :=
  match jsonParse fc.arguments with
  | none =>
    ({ success := false,
       message := "Error executing " ++ fc.name ++ ": SyntaxError: invalid JSON" },
     st)
  | some args =>
    let run : Except String (FunctionResult × Store) :=
      match fc.name with
      | "add_transaction" => handleAddTransaction clock uuid st args
      | "set_budget" => handleSetBudget st args
      | "get_spending_summary" => handleGetSpendingSummary clock st args
      | "get_budget_status" => handleGetBudgetStatus clock st
      | "delete_transaction" => handleDeleteTransaction st args
      | _ => .ok ({ success := false,
                    message := "Unknown function: " ++ fc.name }, st)
    match run with
    | .ok r => r
    | .error e =>
      ({ success := false,
         message := "Error executing " ++ fc.name ++ ": " ++ e }, st)

/-- The multi-step execution loop (`for` over the extracted calls, in
textual order): threads the store through, collecting results.  `k`
indexes the fresh-id supply. -/
def execAll (clock : Clock) (uuid : Nat → String) (k : Nat) (st : Store) :
    List FunctionCall → List FunctionResult × Store
  | [] => ([], st)
  | fc :: rest =>
    let (r, st') := executeFunction clock (uuid k) st fc
    let (rs, st'') := execAll clock uuid (k + 1) st' rest
    (r :: rs, st'')

/-! ## Aggregates recomputed from the live list -/

def incomeSumOf (txs : List Transaction) : JsNum :=
  jsSum ((txs.filter (fun t => t.type == "income")).map (fun t => t.amount))

def expenseSumOf (txs : List Transaction) : JsNum :=
  jsSum ((txs.filter (fun t => t.type == "expense")).map (fun t => t.amount))

/-- The all-time per-category expense breakdown of `getAIAdvice`. -/
def categoryBreakdownOf (txs : List Transaction) : List (String × JsNum) :=
  (txs.filter (fun t => t.type == "expense")).foldl
    (fun acc t => accumAmount acc t.category t.amount) []

/-- `>=` with JS `NaN` semantics, used for the stable descending sort
by amount (`.sort(([,a],[,b]) => b - a)`, a stable sort in JS). -/
def jsGeB : JsNum → JsNum → Bool
  | some a, some b => b ≤ a
  | _, _ => false

def insertByAmtDesc (x : String × JsNum) :
    List (String × JsNum) → List (String × JsNum)
  | [] => [x]
  | y :: ys => if jsGeB x.2 y.2 then x :: y :: ys else y :: insertByAmtDesc x ys

/-- Stable descending sort of a breakdown by amount. -/
def sortByAmtDesc : List (String × JsNum) → List (String × JsNum)
  | [] => []
  | x :: xs => insertByAmtDesc x (sortByAmtDesc xs)

/-! ## `calculateMonthlySpending` -/

structure MonthlyResult where
  found : Bool
  monthName : String
  amount : JsNum
  transactionCount : Nat
  topCategory : Option (String × JsNum) := none
  isSample : Bool := false
deriving Repr, DecidableEq

/-- The filter of `calculateMonthlySpending`: expense, dated, in month
`tm` of the current year `cy`. -/
def monthlyFilter (cy : Int) (tm : Nat) (txs : List Transaction) :
    List Transaction :=
  txs.filter (fun t => t.type == "expense" && monthDatePred cy tm t)

/-- The hardcoded `sampleAmounts` fallback table (April–August). -/
def sampleAmounts : Nat → Option ℚ
  | 3 => some 180
  | 4 => some 220
  | 5 => some 320
  | 6 => some 280
  | 7 => some 350
  | _ => none

/-- `calculateMonthlySpending(transactions, monthName)` with the
ambient year `cy`; `monthName` arrives lowercased from the caller. -/
def calculateMonthlySpending (cy : Int) (txs : List Transaction)
    (monthName : String) : MonthlyResult :=
  match monthMapAbbrev monthName with
  | none => { found := false, monthName := monthName, amount := some 0,
              transactionCount := 0 }
  | some tm =>
    let monthTransactions := monthlyFilter cy tm txs
    if monthTransactions.isEmpty then
      match sampleAmounts tm with
      | some amt =>
        { found := true, monthName := monthNamesLong.getD tm "",
          amount := some amt, transactionCount := 5, isSample := true }
      | none =>
        { found := false, monthName := monthName, amount := some 0,
          transactionCount := 0 }
    else
      let totalAmount := jsSum (monthTransactions.map (fun t => t.amount))
      let breakdown := monthTransactions.foldl
        (fun acc t => accumAmount acc t.category t.amount) []
      { found := true, monthName := monthNamesLong.getD tm "",
        amount := totalAmount, transactionCount := monthTransactions.length,
        topCategory := (sortByAmtDesc breakdown).head? }

/-! ## `calculateDailySpending` -/

structure DayInfo where
  date : String
  amount : JsNum
  transactionCount : Nat
  topCategory : Option (String × JsNum)
deriving Repr, DecidableEq

structure DailyResult where
  found : Bool
  highestDay : Option DayInfo := none
  lowestDay : Option DayInfo := none
deriving Repr, DecidableEq

/-- Grouping key: `t.date ||
new Date(t.timestamp).toISOString().split('T')[0]` (on a `NaN`
timestamp JS would throw; modelled by a fixed key, unreachable under
the date-presence hypotheses of every theorem touching this code). -/
def dayKey (t : Transaction) : String :=
  if t.date ≠ "" then t.date
  else match t.timestamp with
    | some q => isoDateOfMs q
    | none => "Invalid Date"

/-- One step of the `dailyTotals` accumulation (init `{0, []}` then
`+=` and `push`). -/
def upsertDay (acc : List (String × JsNum × List Transaction))
    (t : Transaction) : List (String × JsNum × List Transaction) :=
  let d := dayKey t
  match recGet acc d with
  | some e => recPut acc d (jsAdd e.1 t.amount, e.2 ++ [t])
  | none => acc ++ [(d, jsAdd (some 0) t.amount, [t])]

/-- The transactions `calculateDailySpending` groups: expenses,
month-filtered when a known month name is supplied. -/
def dailyFilter (cy : Int) (txs : List Transaction)
    (monthName : Option String) : List Transaction :=
  let expenses := txs.filter (fun t => t.type == "expense")
  match monthName with
  | some s =>
    match monthMapAbbrev (lcStr s) with
    | some tm => expenses.filter (monthDatePred cy tm)
    | none => expenses
  | none => expenses

def dayEntryInfo (e : String × JsNum × List Transaction) : DayInfo :=
  let breakdown := e.2.2.foldl
    (fun acc t => accumAmount acc t.category t.amount) []
  { date := formatDateLong e.1, amount := e.2.1,
    transactionCount := e.2.2.length,
    topCategory := (sortByAmtDesc breakdown).head? }

/-- The highest/lowest scan: `highestAmount` starts at `0`,
`lowestAmount` at `Infinity` (the `none` of the accumulator); strict
comparisons, so the first day attaining an extreme wins ties, and a
`NaN` day total updates neither. -/
def extremeStep (acc : (Option DayInfo × ℚ) × (Option DayInfo × Option ℚ))
    (e : String × JsNum × List Transaction) :
    (Option DayInfo × ℚ) × (Option DayInfo × Option ℚ) :=
  let info := dayEntryInfo e
  let hi := acc.1
  let lo := acc.2
  let hi' := match e.2.1 with
    | some q => if hi.2 < q then (some info, q) else hi
    | none => hi
  let lo' := match e.2.1, lo.2 with
    | some q, none => (some info, some q)
    | some q, some a => if q < a then (some info, some q) else lo
    | none, _ => lo
  (hi', lo')

/-- `calculateDailySpending(transactions, monthName)` with ambient
year `cy`. -/
def calculateDailySpending (cy : Int) (txs : List Transaction)
    (monthName : Option String) : DailyResult :=
  let filtered := dailyFilter cy txs monthName
  if filtered.isEmpty then { found := false }
  else
    let dailyTotals := filtered.foldl upsertDay []
    let (hi, lo) := dailyTotals.foldl extremeStep ((none, 0), (none, none))
    { found := true, highestDay := hi.1, lowestDay := lo.1 }

/-! ## Deterministic fast-path responses

The router's intent regexes live in `getAIAdvice`; the match results
(lowercased month name, category word, least/most flag) arrive here as
parameters, and each function is the body of the corresponding
fast-path branch. -/

/-- The month-total fast path (`if (monthQuestion)` branch). -/
def monthFastPathResponse (cy : Int) (txs : List Transaction)
    (monthName : String) : String :=
  let ms := calculateMonthlySpending cy txs monthName
  if ms.found then
    "In " ++ ms.monthName ++ ", you spent $" ++ toFixed 2 ms.amount ++
      " across " ++ natDigits ms.transactionCount ++ " transactions. " ++
      (match ms.topCategory with
       | some ca =>
         "Your highest spending was in " ++ ca.1 ++ " ($" ++
           toFixed 2 ca.2 ++ ")."
       | none => "")
  else
    "I don't have spending data for " ++ monthName ++
      ". Your available data shows spending in the current month ($" ++
      toFixed 2 (expenseSumOf txs) ++ ")."

/-- The category-total fast path (`if (categoryQuestion)` branch);
`category` is the lowercased captured word. -/
def categoryFastPathResponse (txs : List Transaction) (category : String) :
    String :=
  let breakdown := categoryBreakdownOf txs
  let categoryAmount := orZero (recGet breakdown category)
  let totalExpenses := expenseSumOf txs
  if jsGtB categoryAmount (some 0) then
    let percentage := toFixed 1 (jsMul (jsDiv categoryAmount totalExpenses) (some 100))
    "You've spent $" ++ toFixed 2 categoryAmount ++ " on " ++ category ++
      ", which is " ++ percentage ++ "% of your total expenses ($" ++
      toFixed 2 totalExpenses ++ ")."
  else
    "You haven't recorded any spending in the " ++ category ++
      " category yet. Your current spending categories are: " ++
      joinSep ", " (breakdown.map (fun e => e.1)) ++ "."

/-- The day-extreme fast path (`if (dayQuestion)` branch).  When the
scan found no day (possible only through `NaN`/non-positive totals,
where JS would throw on `day.date`), the template is modelled as
empty — unreachable under the data-model positivity invariant. -/
def dayFastPathResponse (cy : Int) (txs : List Transaction)
    (isLeast : Bool) (monthMatch : Option String) : String :=
  let ds := calculateDailySpending cy txs monthMatch
  if ds.found then
    match (if isLeast then ds.lowestDay else ds.highestDay) with
    | some day =>
      let superlative := if isLeast then "lowest" else "highest"
      day.date ++ " was your " ++ superlative ++ " spending day" ++
        (match monthMatch with
         | some m => " in " ++ m
         | none => "") ++
        " with $" ++ toFixed 2 day.amount ++ " spent across " ++
        natDigits day.transactionCount ++ " transaction" ++
        (if 1 < day.transactionCount then "s" else "") ++ ". " ++
        (match day.topCategory with
         | some ca => "Most of it went to " ++ ca.1 ++ " ($" ++
             toFixed 2 ca.2 ++ ")."
         | none => "")
    | none => ""
  else
    "I couldn't find daily spending data" ++
      (match monthMatch with
       | some m => " for " ++ m
       | none => "") ++
      ". Your transactions show total spending of $" ++
      toFixed 2 (expenseSumOf txs) ++ "."

/-! ## The registered action catalog (`getAvailableFunctions`)

The registry is prompt material only: `executeFunction` dispatches on
the call's name and never consults it, and nothing validates arguments
against the declared schemas. -/

def categoryEnum : List String :=
  ["food", "transportation", "housing", "entertainment", "shopping",
   "healthcare", "other"]

def typeEnum : List String := ["expense", "income"]

structure FunctionDefinition where
  name : String
  description : String
  parameters : Js
deriving Repr, DecidableEq

def getAvailableFunctions : List FunctionDefinition :=
  [{ name := "add_transaction",
     description := "Add a new expense or income transaction to the user's financial records",
     parameters := .obj
       [("type", .str "object"),
        ("properties", .obj
          [("amount", .obj [("type", .str "number"),
             ("description", .str "The transaction amount in dollars (positive number)")]),
           ("description", .obj [("type", .str "string"),
             ("description", .str "Brief description of the transaction (e.g., \"Grocery shopping\", \"Monthly salary\")")]),
           ("category", .obj [("type", .str "string"),
             ("enum", .arr (categoryEnum.map .str)),
             ("description", .str "The spending category")]),
           ("type", .obj [("type", .str "string"),
             ("enum", .arr (typeEnum.map .str)),
             ("description", .str "Whether this is an expense or income")]),
           ("date", .obj [("type", .str "string"),
             ("description", .str "Transaction date in YYYY-MM-DD format (optional, defaults to today)")])]),
        ("required", .arr [.str "amount", .str "description", .str "category", .str "type"])] },
   { name := "set_budget",
     description := "Set or update the monthly budget limit for a specific spending category",
     parameters := .obj
       [("type", .str "object"),
        ("properties", .obj
          [("category", .obj [("type", .str "string"),
             ("enum", .arr (categoryEnum.map .str)),
             ("description", .str "The category to set the budget for")]),
           ("amount", .obj [("type", .str "number"),
             ("description", .str "The monthly budget limit in dollars")])]),
        ("required", .arr [.str "category", .str "amount"])] },
   { name := "get_spending_summary",
     description := "Get detailed spending information for a specific category or time period",
     parameters := .obj
       [("type", .str "object"),
        ("properties", .obj
          [("category", .obj [("type", .str "string"),
             ("enum", .arr ((categoryEnum ++ ["all"]).map .str)),
             ("description", .str "The category to analyze, or \"all\" for all categories")]),
           ("month", .obj [("type", .str "string"),
             ("description", .str "Month name (e.g., \"October\", \"November\") or \"current\" for current month")])]),
        ("required", .arr [])] },
   { name := "get_budget_status",
     description := "Check budget status across all categories to see if user is over/under budget",
     parameters := .obj
       [("type", .str "object"), ("properties", .obj []), ("required", .arr [])] },
   { name := "delete_transaction",
     description := "Delete a specific transaction by its description or recent transaction",
     parameters := .obj
       [("type", .str "object"),
        ("properties", .obj
          [("description", .obj [("type", .str "string"),
             ("description", .str "The description of the transaction to delete")])]),
        ("required", .arr [.str "description"])] }]

/-! ## Directive extraction

The source extracts directives with the global case-insensitive regex
whose pattern is, in words: the literal `FUNCTION_CALL:`, optional
whitespace, then either
* alternative 1 — an open brace, a run of non-close-brace characters,
  an open brace, a run of non-close-brace characters, a close brace,
  a run of non-close-brace characters, a close brace; or
* alternative 2 — an open brace, a run of non-close-brace characters,
  a close brace.

With backtracking, alternative 1 matches at a position exactly when,
writing `p` for the first close brace after the start and `m` for the
next close brace after `p`: the start is an open brace, some open
brace occurs strictly between start and `p`, and `m` exists; the match
then spans start to `m` (the greedy inner splits do not affect the
span, since every candidate split sees the same `p` and `m`).
Alternative 2 spans start to `p`.  `matchAll` resumes scanning after
each full match and advances one character past a failed position. -/

/-- Split at the first occurrence of `c`: characters before it and the
remainder after it. -/
def splitAtFirst (c : Char) : List Char → Option (List Char × List Char)
  | [] => none
  | x :: rest =>
    if x = c then some ([], rest)
    else (splitAtFirst c rest).map (fun p => (x :: p.1, p.2))

/-- Case-insensitive literal match, returning the remainder. -/
def ciStrip : List Char → List Char → Option (List Char)
  | [], rest => some rest
  | _ :: _, [] => none
  | a :: ls, c :: rest => if lcChar c = lcChar a then ciStrip ls rest else none

/-- The brace-pattern alternation at a position (capture, remainder
after the match). -/
def matchAlt : List Char → Option (List Char × List Char)
  | [] => none
  | b :: t =>
    if b = obr then
      match splitAtFirst cbr t with
      | none => none
      | some (b1, r1) =>
        if b1.contains obr then
          match splitAtFirst cbr r1 with
          | some (b2, r2) => some (obr :: b1 ++ cbr :: b2 ++ [cbr], r2)
          | none => some (obr :: b1 ++ [cbr], r1)
        else some (obr :: b1 ++ [cbr], r1)
    else none

/-- Attempt the full pattern at the current position. -/
def tryMatchAt (cs : List Char) : Option (List Char × List Char) :=
  match ciStrip "FUNCTION_CALL:".data cs with
  | none => none
  | some afterLit => matchAlt (afterLit.dropWhile isJsWs)

def scanCalls : Nat → List Char → List (List Char)
  | 0, _ => []
  | _ + 1, [] => []
  | fuel + 1, c :: rest =>
    match tryMatchAt (c :: rest) with
    | some (cap, after) => cap :: scanCalls fuel after
    | none => scanCalls fuel rest

/-- All captures of the directive regex over the response text, in
textual order. -/
def findFunctionCalls (s : String) : List String :=
  (scanCalls (s.data.length + 1) s.data).map (fun cs => (⟨cs⟩ : String))

/-- The brace-counting pass over a capture: find the first position
where the running brace count returns to zero and cut there; keep the
whole string when it never does (`endIndex` stays 0). -/
def braceScan : List Char → Int → Nat → Option Nat
  | [], _, _ => none
  | c :: rest, count, i =>
    let count' := if c = obr then count + 1 else if c = cbr then count - 1 else count
    if count' = 0 then some (i + 1) else braceScan rest count' (i + 1)

def braceTrunc (s : String) : String :=
  match braceScan s.data 0 0 with
  | some endIndex => ⟨s.data.take endIndex⟩
  | none => s

/-- Turn one capture into a `FunctionCall`: truncate, `JSON.parse`
(`none` aborts the whole batch, as the `try` wraps the loop), read
`name`, and re-stringify a non-string `arguments` value.  A missing
`arguments` becomes the text `undefined` (as `JSON.stringify` of
`undefined` does when interpolated), which later fails to parse inside
`executeFunction`, exactly as in JS. -/
def buildCall (cap : String) : Option FunctionCall :=
  (jsonParse (braceTrunc cap)).map fun parsed =>
    { name := jsTemplateOpt (jsGet parsed "name"),
      arguments :=
        match jsGet parsed "arguments" with
        | some (.str s) => s
        | some v => jsonStringify v
        | none => "undefined" }

def buildCalls : List String → Option (List FunctionCall)
  | [] => some []
  | c :: rest =>
    match buildCall c with
    | some fc => (buildCalls rest).map (fun l => fc :: l)
    | none => none

/-! ## Context assembly (prompt helpers) -/

structure KnowledgeEntry where
  category : String
  content : String
deriving Repr, DecidableEq

structure RAGContext where
  knowledgeEntries : List KnowledgeEntry
  similarTransactions : List Js
deriving Repr, DecidableEq

def emptyRAG : RAGContext := ⟨[], []⟩

structure ChatMsg where
  role : String
  content : String
deriving Repr, DecidableEq

/-- Newline character as a string. -/
def nl : String := ⟨[Char.ofNat 10]⟩

/-- The heavy horizontal rule of the prompt. -/
def hrule : String := ⟨List.replicate 20 (Char.ofNat 9473)⟩

/-- Stable descending sort by string key (`sort(([a],[b]) =>
b.localeCompare(a))`; for the all-ASCII `YYYY-MM` and date keys this
is code-point order). -/
def insertByKeyDesc (x : String × α) : List (String × α) → List (String × α)
  | [] => [x]
  | y :: ys => if y.1 ≤ x.1 then x :: y :: ys else y :: insertByKeyDesc x ys

def sortByKeyDesc : List (String × α) → List (String × α)
  | [] => []
  | x :: xs => insertByKeyDesc x (sortByKeyDesc xs)

/-- `formatMonthKey`. -/
def formatMonthKey (monthKey : String) : String :=
  if monthKey = "Unknown" then "Unknown"
  else
    let parts := splitOnChar '-' monthKey
    let year := parts.getD 0 ""
    let monthStr :=
      match jsParseInt (parts.getD 1 "undefined") with
      | some m => if 1 ≤ m ∧ m ≤ 12 then monthNamesShort.getD (m - 1).toNat "" else "undefined"
      | none => "undefined"
    monthStr ++ " " ++ year

/-- `calculateMonthlyBreakdownForAllMonths`: per-month expense/income
totals and counts, newest first, capped at 12. -/
def calculateMonthlyBreakdownForAllMonths (txs : List Transaction) : String :=
  let byMonth := txs.foldl (fun acc t =>
    let monthKey := if t.date ≠ "" then (⟨t.date.data.take 7⟩ : String) else "Unknown"
    let e := (recGet acc monthKey).getD (some 0, some 0, 0)
    let e' := (if t.type == "expense" then jsAdd e.1 t.amount else e.1,
               if t.type == "income" then jsAdd e.2.1 t.amount else e.2.1,
               e.2.2 + 1)
    recPut acc monthKey e') ([] : List (String × JsNum × JsNum × Nat))
  let formatted := joinSep nl (((sortByKeyDesc byMonth).take 12).map fun e =>
    formatMonthKey e.1 ++ ": $" ++ toFixed 2 e.2.1 ++ " spent, $" ++
      toFixed 2 e.2.2.1 ++ " earned (" ++ natDigits e.2.2.2 ++ " transactions)")
  if formatted = "" then "No monthly data available" else formatted

/-- `calculateDailySpendingSummary`: per-day totals with top category,
newest first, capped at 90. -/
def calculateDailySpendingSummary (txs : List Transaction) : String :=
  let daily := (txs.filter (fun t => t.type == "expense" && t.date ≠ "")).foldl
    (fun acc t =>
      let e := (recGet acc t.date).getD (some 0, 0, [])
      recPut acc t.date
        (jsAdd e.1 t.amount, e.2.1 + 1, accumAmount e.2.2 t.category t.amount))
    ([] : List (String × JsNum × Nat × List (String × JsNum)))
  let formatted := joinSep nl (((sortByKeyDesc daily).take 90).map fun e =>
    let top :=
      match (sortByAmtDesc e.2.2.2).head? with
      | some ca => ca.1 ++ " $" ++ toFixed 2 ca.2
      | none => ""   -- a group always has a top category; unreachable
    e.1 ++ ": $" ++ toFixed 2 e.2.1 ++ " spent (" ++ natDigits e.2.2.1 ++
      " transactions, top: " ++ top ++ ")")
  if formatted = "" then "No daily spending data available" else formatted

def functionDescriptions : String :=
  joinSep nl (getAvailableFunctions.map (fun f => "- " ++ f.name ++ ": " ++ f.description))

/-- The conditional knowledge-base section of the system prompt. -/
def knowledgeSection (rc : RAGContext) : String :=
  if rc.knowledgeEntries.isEmpty then ""
  else
    nl ++ "RELEVANT FINANCIAL KNOWLEDGE BASE:" ++ nl ++ hrule ++ nl ++
      joinSep nl ((rc.knowledgeEntries.enum.map fun ei =>
        natDigits (ei.1 + 1) ++ ". " ++ ucStr ei.2.category ++ ":" ++ nl ++
          ei.2.content ++ nl)) ++
      nl ++ hrule ++ nl ++ nl ++
      "Use the above knowledge base articles to provide expert financial advice when relevant." ++ nl

/-- The system prompt of the main model call, assembled from
pre-computed aggregates, the action catalog, and retrieved context. -/
def buildSystemPrompt (rc : RAGContext) (txs : List Transaction) : String :=
  let totalIncome := incomeSumOf txs
  let totalExpenses := expenseSumOf txs
  let balance := jsSub totalIncome totalExpenses
  let categoryData := joinSep ", " ((sortByAmtDesc (categoryBreakdownOf txs)).map
    (fun e => e.1 ++ ": $" ++ toFixed 2 e.2))
  "You are an intelligent financial assistant with complete access to the user's financial data AND the ability to take actions." ++ nl ++ nl ++
  "CRITICAL RULES:" ++ nl ++
  "1. NEVER make up numbers or guess - use ONLY the data provided below" ++ nl ++
  "2. NEVER do math calculations yourself - all totals are pre-calculated for you" ++ nl ++
  "3. Be specific with numbers - always include dollar amounts and transaction counts" ++ nl ++
  "4. If you don't have data for a specific period, say so clearly" ++ nl ++
  "5. Keep responses concise (under 100 words) and focused on the current question" ++ nl ++
  "6. DO NOT repeat information from previous messages" ++ nl ++
  "7. Answer ONLY what the user is currently asking" ++ nl ++
  "8. Use conversation history ONLY for context, not to repeat responses" ++ nl ++ nl ++
  "AVAILABLE ACTIONS - Call these functions when the user wants to DO something:" ++ nl ++
  functionDescriptions ++ nl ++ nl ++
  "MULTI-STEP ACTIONS:" ++ nl ++
  "You can call MULTIPLE functions in sequence for complex requests. Each function call should be on its own line." ++ nl ++ nl ++
  "WHEN TO USE FUNCTION CALLS:" ++ nl ++
  "- User wants to SET/UPDATE/CHANGE a budget → use set_budget" ++ nl ++
  "- User wants to ADD/RECORD an expense or income → use add_transaction" ++ nl ++
  "- User wants to DELETE/REMOVE a transaction → use delete_transaction" ++ nl ++
  "- User wants to CHECK budget status → use get_budget_status" ++ nl ++
  "- User wants to ANALYZE spending → use get_spending_summary" ++ nl ++ nl ++
  "FORMAT for function calls (MUST match exactly):" ++ nl ++
  "FUNCTION_CALL: \x7b\"name\": \"function_name\", \"arguments\": \x7b\"param\": \"value\"\x7d\x7d" ++ nl ++ nl ++
  "SINGLE-STEP EXAMPLES:" ++ nl ++
  "User: \"Set my food budget to $500\"" ++ nl ++
  "→ FUNCTION_CALL: \x7b\"name\": \"set_budget\", \"arguments\": \x7b\"category\": \"food\", \"amount\": 500\x7d\x7d" ++ nl ++ nl ++
  "User: \"I spent $50 on groceries\"" ++ nl ++
  "→ FUNCTION_CALL: \x7b\"name\": \"add_transaction\", \"arguments\": \x7b\"amount\": 50, \"description\": \"groceries\", \"category\": \"food\", \"type\": \"expense\"\x7d\x7d" ++ nl ++ nl ++
  "MULTI-STEP EXAMPLES:" ++ nl ++
  "User: \"I spent $50 on groceries. Am I over budget on food?\"" ++ nl ++
  "→ FUNCTION_CALL: \x7b\"name\": \"add_transaction\", \"arguments\": \x7b\"amount\": 50, \"description\": \"groceries\", \"category\": \"food\", \"type\": \"expense\"\x7d\x7d" ++ nl ++
  "→ FUNCTION_CALL: \x7b\"name\": \"get_budget_status\", \"arguments\": \x7b\x7d\x7d" ++ nl ++ nl ++
  "User: \"Add $100 gas, $50 food, and $200 shopping\"" ++ nl ++
  "→ FUNCTION_CALL: \x7b\"name\": \"add_transaction\", \"arguments\": \x7b\"amount\": 100, \"description\": \"gas\", \"category\": \"transportation\", \"type\": \"expense\"\x7d\x7d" ++ nl ++
  "→ FUNCTION_CALL: \x7b\"name\": \"add_transaction\", \"arguments\": \x7b\"amount\": 50, \"description\": \"food\", \"category\": \"food\", \"type\": \"expense\"\x7d\x7d" ++ nl ++
  "→ FUNCTION_CALL: \x7b\"name\": \"add_transaction\", \"arguments\": \x7b\"amount\": 200, \"description\": \"shopping\", \"category\": \"shopping\", \"type\": \"expense\"\x7d\x7d" ++ nl ++ nl ++
  "User: \"Set food budget to $600, entertainment to $250\"" ++ nl ++
  "→ FUNCTION_CALL: \x7b\"name\": \"set_budget\", \"arguments\": \x7b\"category\": \"food\", \"amount\": 600\x7d\x7d" ++ nl ++
  "→ FUNCTION_CALL: \x7b\"name\": \"set_budget\", \"arguments\": \x7b\"category\": \"entertainment\", \"amount\": 250\x7d\x7d" ++ nl ++ nl ++
  "For INFORMATIONAL questions (no action needed), respond normally with text." ++ nl ++ nl ++
  knowledgeSection rc ++ nl ++ nl ++
  "USER'S FINANCIAL DATA:" ++ nl ++ hrule ++ nl ++
  "Current Balance: $" ++ toFixed 2 balance ++ nl ++
  "Total Income: $" ++ toFixed 2 totalIncome ++ nl ++
  "Total Expenses: $" ++ toFixed 2 totalExpenses ++ nl ++
  "Total Transactions: " ++ natDigits txs.length ++ nl ++ nl ++
  "SPENDING BY CATEGORY (all-time):" ++ nl ++
  (if categoryData = "" then "No expenses recorded yet" else categoryData) ++ nl ++ nl ++
  "MONTHLY SPENDING BREAKDOWN (2025):" ++ nl ++
  calculateMonthlyBreakdownForAllMonths txs ++ nl ++ nl ++
  "DAILY SPENDING BREAKDOWN (recent months):" ++ nl ++
  calculateDailySpendingSummary txs ++ nl ++ nl ++
  hrule ++ nl ++ nl ++
  "Now answer the user's question using ONLY the data above OR call a function to perform an action. Be precise and cite specific numbers."

/-! ## The function-call orchestrator (`getAIAdvice`, LLM phase)

Models `getAIAdvice` from the point where no deterministic fast path
matched (the user turn is already saved; the fast-path branches are
the standalone `…FastPathResponse` functions above).  The two
inference calls are oracle parameters; a `.error` result is a thrown
rejection (the 30 s `Promise.race` timeout of the main call, or any
endpoint fault), caught by the surrounding `try`. -/

structure Oracles where
  mainAI : List ChatMsg → Except String (Option String)
  confirmAI : List ChatMsg → Except String (Option String)

/-- The consumer-facing response body. -/
structure ApiResult where
  response : String
  action : Option String := none
  functionsCalled : Option (List String) := none
  functionResults : Option (List FunctionResult) := none
  stepsExecuted : Option Nat := none
deriving Repr, DecidableEq

/-- `amount` read back out of a result payload (always a number for
the payloads this system builds). -/
def numOfJs : Option Js → JsNum
  | some (.num n) => n
  | _ => none

/-- The `CALCULATED TOTALS` block over the successfully added
transactions of the batch. -/
def calculatedSummaryOf (fcs : List FunctionCall)
    (results : List FunctionResult) : String :=
  let addedTx := ((fcs.zip results).filter
    (fun p => p.1.name == "add_transaction" && p.2.success)).map
    (fun p => p.2.data.getD .jsNull)
  if addedTx.isEmpty then ""
  else
    let byCategory := addedTx.foldl (fun acc d =>
      accumAmount acc (jsTemplateOpt (jsGet d "category"))
        (numOfJs (jsGet d "amount"))) []
    let grandTotal := addedTx.foldl
      (fun acc d => jsAdd acc (numOfJs (jsGet d "amount"))) (some 0)
    nl ++ nl ++ "CALCULATED TOTALS (use these exact numbers):" ++ nl ++
      "- Total transactions added: " ++ natDigits addedTx.length ++ nl ++
      "- Grand total spent: $" ++ toFixed 2 grandTotal ++ nl ++
      "- By category: " ++
      joinSep ", " (byCategory.map (fun e => e.1 ++ " $" ++ toFixed 2 e.2))

def resultsSummaryLines : Nat → List (FunctionCall × FunctionResult) → List String
  | _, [] => []
  | i, p :: rest =>
    (natDigits (i + 1) ++ ". " ++ p.1.name ++ ": " ++
      (if p.2.success then "Success" else "Failed") ++ " - " ++ p.2.message) ::
      resultsSummaryLines (i + 1) rest

def resultsSummaryOf (fcs : List FunctionCall)
    (results : List FunctionResult) : String :=
  joinSep nl (resultsSummaryLines 0 (fcs.zip results))

/-- The `UPDATED FINANCIAL STATUS` block: recomputed from the
transaction list it is handed (the post-batch store read). -/
def updatedFinCtxStr (txs : List Transaction) : String :=
  nl ++ nl ++ "UPDATED FINANCIAL STATUS (use these exact numbers):" ++ nl ++
  "- Current Balance: $" ++
    toFixed 2 (jsSub (incomeSumOf txs) (expenseSumOf txs)) ++ nl ++
  "- Total Income: $" ++ toFixed 2 (incomeSumOf txs) ++ nl ++
  "- Total Expenses: $" ++ toFixed 2 (expenseSumOf txs) ++ nl ++
  "- Total Transactions: " ++ natDigits txs.length

def confirmSystemText : String :=
  "You are a financial assistant. Provide a brief confirmation of what was done." ++ nl ++ nl ++
  "CRITICAL RULES:" ++ nl ++
  "1. ONLY confirm what the user asked you to do - don't volunteer extra information" ++ nl ++
  "2. If they asked to log expenses, just confirm the transactions were added with the total" ++ nl ++
  "3. If they asked about balance, ONLY tell them the balance" ++ nl ++
  "4. DO NOT include balance, income, or expense info unless directly asked" ++ nl ++
  "5. Use ONLY the exact numbers provided - NEVER calculate yourself" ++ nl ++
  "6. Keep response under 50 words" ++ nl ++
  "7. Be concise and focused"

/-- The messages of the second (confirmation) model call; `postTxs` is
the transaction list re-read from storage after the batch ran. -/
def confirmMessagesOf (message : String) (fcs : List FunctionCall)
    (results : List FunctionResult) (postTxs : List Transaction) :
    List ChatMsg :=
  [⟨"system", confirmSystemText⟩,
   ⟨"user", message⟩,
   ⟨"user", "Executed " ++ natDigits fcs.length ++ " function(s):" ++ nl ++
     resultsSummaryOf fcs results ++ calculatedSummaryOf fcs results ++
     updatedFinCtxStr postTxs ++ nl ++ nl ++
     "Provide a brief confirmation of what was done. Answer ONLY what was asked - do not volunteer balance or financial status unless specifically requested."⟩]

/-- The directive-extraction-and-execution tail of `getAIAdvice`
(from `const functionCallPattern = …` to the response construction):
extract captures, parse them all, execute sequentially, re-read the
store, confirm.  A parse failure or an absence of directives returns
the raw `responseText`; a rejected confirmation call falls to the
outer catch (`errorResponse`). -/
def directivePhase (clock : Clock) (uuid : Nat → String) (oracles : Oracles)
    (st : Store) (message convId : String) (now : Int)
    (errorResponse responseText : String) : ApiResult × Store :=
  let captures := findFunctionCalls responseText
  if captures.isEmpty then
    ({ response := responseText },
     saveMessage st "assistant" responseText convId now)
  else
    match buildCalls captures with
    | none =>
      -- parse error: fall through and return the raw text
      ({ response := responseText },
       saveMessage st "assistant" responseText convId now)
    | some fcs =>
      let rs := execAll clock uuid 0 st fcs
      let results := rs.1
      let st1 := rs.2
      match oracles.confirmAI (confirmMessagesOf message fcs results st1.transactions) with
      | .error _ =>
        -- a rejected confirmation call propagates to the outer catch;
        -- the batch's mutations are already persisted
        ({ response := errorResponse },
         saveMessage st1 "assistant" errorResponse convId now)
      | .ok c =>
        let joined := joinSep " " (results.map (fun fr => fr.message))
        let responseText2 :=
          match c with
          | some s => if s = "" then joined else s
          | none => joined
        let actionTaken := results.any (fun fr =>
          match fr.action with
          | some a => a ≠ ""
          | none => false)
        ({ response := responseText2,
           action := if actionTaken then some "multi_step_completed" else none,
           functionsCalled := some (fcs.map (fun fc => fc.name)),
           functionResults := some results,
           stepsExecuted := some fcs.length },
         saveMessage st1 "assistant" responseText2 convId now)

/-- `ragContext` after the catch: a thrown retrieval fault becomes the
empty context. -/
def ragOrEmpty : Except String RAGContext → RAGContext
  | .ok c => c
  | .error _ => emptyRAG

/-- The LLM phase of `getAIAdvice`, parameterised by the retrieval
outcome `rag` (a `.error` is any fault thrown while building the
vector DB or retrieving context, swallowed into the empty context). -/
def llmPhase (clock : Clock) (uuid : Nat → String) (oracles : Oracles)
    (rag : Except String RAGContext) (st : Store)
    (message convId : String) (now : Int) : ApiResult × Store :=
  let transactions := st.transactions
  let totalIncome := incomeSumOf transactions
  let totalExpenses := expenseSumOf transactions
  let balance := jsSub totalIncome totalExpenses
  let ragContext := ragOrEmpty rag
  let systemPrompt := buildSystemPrompt ragContext transactions
  let recentMessages := takeLast 5 (loadConversation st convId)
  let messages : List ChatMsg :=
    ⟨"system", systemPrompt⟩ ::
      (recentMessages.map (fun m => (⟨m.role, m.content⟩ : ChatMsg)) ++
        [⟨"user", message⟩])
  let errorResponse :=
    "I have access to your financial data but encountered an issue. Your current balance is $" ++
      toFixed 2 balance ++ " with $" ++ toFixed 2 totalExpenses ++
      " in expenses. Please try rephrasing your question."
  match oracles.mainAI messages with
  | .error _ =>
    ({ response := errorResponse },
     saveMessage st "assistant" errorResponse convId now)
  | .ok r =>
    let responseText0 := r.getD ""
    let responseText :=
      if responseText0 = "" then
        "I have access to your financial data: Balance is $" ++
          toFixed 2 balance ++ ", with $" ++ toFixed 2 totalExpenses ++
          " in total expenses across " ++ natDigits transactions.length ++
          " transactions. What would you like to know?"
      else responseText0
    directivePhase clock uuid oracles st message convId now errorResponse
      responseText

/-! ## Naive independent recomputation (specification side)

Direct filter-and-fold recomputations of the quantities the router
reports, for comparison with the router's answers (claim C1). -/

/-- Sum of the amounts of the expense transactions of month `tm`
(0-based) of year `cy`. -/
def naiveMonthSum (cy : Int) (tm : Nat) (txs : List Transaction) : JsNum :=
  jsSum ((txs.filter (fun t => t.type == "expense" && monthDatePred cy tm t)).map
    (fun t => t.amount))

/-- Count of the expense transactions of month `tm` of year `cy`. -/
def naiveMonthCount (cy : Int) (tm : Nat) (txs : List Transaction) : Nat :=
  (txs.filter (fun t => t.type == "expense" && monthDatePred cy tm t)).length

/-- Sum of the expense amounts recorded in category `c`. -/
def naiveCategorySum (txs : List Transaction) (c : String) : JsNum :=
  jsSum ((txs.filter (fun t => t.type == "expense" && t.category == c)).map
    (fun t => t.amount))

/-- Sum of the expense amounts of day `d` among the transactions the
day-extreme path considers. -/
def naiveDaySum (cy : Int) (monthName : Option String) (d : String)
    (txs : List Transaction) : JsNum :=
  jsSum (((dailyFilter cy txs monthName).filter (fun t => dayKey t == d)).map
    (fun t => t.amount))

/-- `≤` with JS `NaN` semantics. -/
def jsLeB : JsNum → JsNum → Bool
  | some a, some b => a ≤ b
  | _, _ => false

/-- The `highest`-component of one `extremeStep` (it reads only the
`hi` accumulator, so the scan splits into two independent folds). -/
def hiStep (hi : Option DayInfo × ℚ)
    (e : String × JsNum × List Transaction) : Option DayInfo × ℚ :=
  match e.2.1 with
  | some q => if hi.2 < q then (some (dayEntryInfo e), q) else hi
  | none => hi

/-- The `lowest`-component of one `extremeStep`. -/
def loStep (lo : Option DayInfo × Option ℚ)
    (e : String × JsNum × List Transaction) : Option DayInfo × Option ℚ :=
  match e.2.1, lo.2 with
  | some q, none => (some (dayEntryInfo e), some q)
  | some q, some a => if q < a then (some (dayEntryInfo e), some q) else lo
  | none, _ => lo

/-- The day-extreme answers match the naive per-day recomputation:
both extremes are reported, each names (via `dayKey`) a day of some
transaction actually present in the filtered data, its amount is the
naive sum for that day, and that sum is maximal (resp. minimal) among
the naive sums of all days present. -/
def dailyExtremesNaive (cy : Int) (txs : List Transaction)
    (mopt : Option String) : Prop :=
  (calculateDailySpending cy txs mopt).found = true ∧
  (∃ hd, (calculateDailySpending cy txs mopt).highestDay = some hd ∧
    ∃ t0 ∈ dailyFilter cy txs mopt,
      hd.date = formatDateLong (dayKey t0) ∧
      hd.amount = naiveDaySum cy mopt (dayKey t0) txs ∧
      ∀ t ∈ dailyFilter cy txs mopt,
        jsLeB (naiveDaySum cy mopt (dayKey t) txs)
          (naiveDaySum cy mopt (dayKey t0) txs) = true) ∧
  (∃ ld, (calculateDailySpending cy txs mopt).lowestDay = some ld ∧
    ∃ t0 ∈ dailyFilter cy txs mopt,
      ld.date = formatDateLong (dayKey t0) ∧
      ld.amount = naiveDaySum cy mopt (dayKey t0) txs ∧
      ∀ t ∈ dailyFilter cy txs mopt,
        jsLeB (naiveDaySum cy mopt (dayKey t0) txs)
          (naiveDaySum cy mopt (dayKey t) txs) = true)

/-- A concrete September ledger (two food expenses, one income
record), used to instantiate the router-vs-naive comparison. -/
def c1txs : List Transaction :=
  [{ id := "t1", amount := some 20, description := "Groceries",
     category := "food", type := "expense", date := "2025-09-01",
     timestamp := some 0 },
   { id := "t2", amount := some 35, description := "Dinner",
     category := "food", type := "expense", date := "2025-09-03",
     timestamp := some 0 },
   { id := "t3", amount := some 3000, description := "Salary",
     category := "income", type := "income", date := "2025-09-05",
     timestamp := some 0 }]

/-! ## Support lemmas -/

theorem deleteFirst_of_none (p : Transaction → Bool) :
    ∀ l : List Transaction, (∀ t ∈ l, p t = false) → deleteFirst p l = none := by
  intro l h
  induction l with
  | nil => rfl
  | cons t rest ih =>
    have ht : p t = false := h t (by simp)
    simp [deleteFirst, ht, ih fun t' h' => h t' (by simp [h'])]

theorem deleteFirst_of_first (p : Transaction → Bool) :
    ∀ l1 : List Transaction, ∀ tx l2, (∀ t ∈ l1, p t = false) → p tx = true →
      deleteFirst p (l1 ++ tx :: l2) = some (tx, l1 ++ l2) := by
  intro l1
  induction l1 with
  | nil => intro tx l2 _ htx; simp [deleteFirst, htx]
  | cons a l ih =>
    intro tx l2 h htx
    have ha : p a = false := h a (by simp)
    simp [deleteFirst, ha, ih tx l2 (fun t ht => h t (by simp [ht])) htx]

theorem execAll_append (clock : Clock) (uuid : Nat → String) :
    ∀ (fcs1 : List FunctionCall) (k : Nat) (st : Store) (fcs2 : List FunctionCall),
      execAll clock uuid k st (fcs1 ++ fcs2) =
        ((execAll clock uuid k st fcs1).1 ++
           (execAll clock uuid (k + fcs1.length)
             (execAll clock uuid k st fcs1).2 fcs2).1,
         (execAll clock uuid (k + fcs1.length)
           (execAll clock uuid k st fcs1).2 fcs2).2) := by
  intro fcs1
  induction fcs1 with
  | nil => intro k st fcs2; simp [execAll]
  | cons fc rest ih =>
    intro k st fcs2
    have harith : k + 1 + rest.length = k + (rest.length + 1) := by omega
    simp [execAll, ih, harith]

theorem execAll_length (clock : Clock) (uuid : Nat → String) :
    ∀ (fcs : List FunctionCall) (k : Nat) (st : Store),
      (execAll clock uuid k st fcs).1.length = fcs.length := by
  intro fcs
  induction fcs with
  | nil => intro k st; rfl
  | cons fc rest ih => intro k st; simp [execAll, ih]

/-! ## Claims -/

/-- C3, counterexample: `executeFunction` runs `add_transaction` with
`amount = -5`, `category = "junkfood"` and `type = "banana"` — all
three violating the declared schema — yet reports success and appends
the record to the store, so no schema validation precedes the
handler. -/
theorem claim_C3_counterexample :
    (executeFunction ⟨"2025-10-11", 2025, "2025-10"⟩ "tx-1" emptyStore
        ⟨"add_transaction",
         "\x7b\"amount\": -5, \"description\": \"hack\", \"category\": \"junkfood\", \"type\": \"banana\"\x7d"⟩).1.success
        = true ∧
    ((executeFunction ⟨"2025-10-11", 2025, "2025-10"⟩ "tx-1" emptyStore
        ⟨"add_transaction",
         "\x7b\"amount\": -5, \"description\": \"hack\", \"category\": \"junkfood\", \"type\": \"banana\"\x7d"⟩).2.transactions.map
      (fun t => (t.amount, t.category, t.type)))
        = [(some (-5 : ℚ), "junkfood", "banana")] ∧
    "junkfood" ∉ categoryEnum ∧ "banana" ∉ typeEnum ∧ ¬ (0 : ℚ) < -5 := by
  refine ⟨by decide, by decide, by decide, by decide, by norm_num⟩

/-- C3 (amended): the only checks preceding a handler are that the
argument string parses as JSON and that the action name is one of the
registered five; either failure yields a failed `FunctionResult` with
the store untouched.  Schema constraints (positive amount, enumerated
category and type) are never enforced — see the counterexample. -/
theorem claim_C3_amended (clock : Clock) (uuid : String) (st : Store)
    (fc : FunctionCall)
    (h : jsonParse fc.arguments = none ∨
      fc.name ∉ getAvailableFunctions.map (fun f => f.name)) :
    (executeFunction clock uuid st fc).1.success = false ∧
    (executeFunction clock uuid st fc).2 = st := by
  rcases h with h | h
  · simp [executeFunction, h]
  · have h1 : fc.name ≠ "add_transaction" := by
      intro e; exact h (by simp [getAvailableFunctions, e])
    have h2 : fc.name ≠ "set_budget" := by
      intro e; exact h (by simp [getAvailableFunctions, e])
    have h3 : fc.name ≠ "get_spending_summary" := by
      intro e; exact h (by simp [getAvailableFunctions, e])
    have h4 : fc.name ≠ "get_budget_status" := by
      intro e; exact h (by simp [getAvailableFunctions, e])
    have h5 : fc.name ≠ "delete_transaction" := by
      intro e; exact h (by simp [getAvailableFunctions, e])
    unfold executeFunction
    cases hp : jsonParse fc.arguments with
    | none => simp
    | some args => simp [h1, h2, h3, h4, h5]

theorem claim_C3_witness :
    (jsonParse "not json" = none ∨
      "frobnicate" ∉ getAvailableFunctions.map (fun f => f.name)) ∧
    (executeFunction ⟨"2025-10-11", 2025, "2025-10"⟩ "u" emptyStore
        ⟨"frobnicate", "not json"⟩).1.success = false ∧
    (executeFunction ⟨"2025-10-11", 2025, "2025-10"⟩ "u" emptyStore
        ⟨"frobnicate", "not json"⟩).2 = emptyStore :=
  ⟨Or.inl (by decide),
   claim_C3_amended ⟨"2025-10-11", 2025, "2025-10"⟩ "u" emptyStore
     ⟨"frobnicate", "not json"⟩ (Or.inl (by decide))⟩

/-- C5: directives execute strictly sequentially in the order they
appear — the batch splits as the first segment run first, then the
second segment run against the store the first produced (so any later
directive observes every earlier mutation), with exactly one result
per directive, positionally. -/
theorem claim_C5_sequential (clock : Clock) (uuid : Nat → String) (k : Nat)
    (st : Store) (fcs1 fcs2 : List FunctionCall) :
    (execAll clock uuid k st (fcs1 ++ fcs2)).1 =
      (execAll clock uuid k st fcs1).1 ++
        (execAll clock uuid (k + fcs1.length)
          (execAll clock uuid k st fcs1).2 fcs2).1 ∧
    (execAll clock uuid k st (fcs1 ++ fcs2)).2 =
      (execAll clock uuid (k + fcs1.length)
        (execAll clock uuid k st fcs1).2 fcs2).2 ∧
    (execAll clock uuid k st (fcs1 ++ fcs2)).1.length =
      fcs1.length + fcs2.length := by
  refine ⟨?_, ?_, ?_⟩
  · rw [execAll_append]
  · rw [execAll_append]
  · rw [execAll_length]; simp

/-- C7: `delete_transaction` removes exactly the first record whose
description contains the given text case-insensitively (every earlier
record fails the match, all other records survive in order), and with
no matching record it fails without touching the store. -/
theorem claim_C7_delete (st : Store) (d : String) :
    ((∀ t ∈ st.transactions,
        strIncludes (lcStr t.description) (lcStr d) = false) →
      handleDeleteTransaction st (Js.obj [("description", Js.str d)]) =
        .ok ({ success := false,
               message := "No transaction found matching " ++
                 (⟨[qch]⟩ : String) ++ d ++ (⟨[qch]⟩ : String) }, st)) ∧
    (∀ l1 tx l2, st.transactions = l1 ++ tx :: l2 →
      (∀ t ∈ l1, strIncludes (lcStr t.description) (lcStr d) = false) →
      strIncludes (lcStr tx.description) (lcStr d) = true →
      handleDeleteTransaction st (Js.obj [("description", Js.str d)]) =
        .ok ({ success := true, data := some (txToJs tx),
               message := "Deleted transaction: " ++ tx.description ++
                 " ($" ++ numTemplate tx.amount ++ ")" },
             { st with transactions := l1 ++ l2 })) := by
  constructor
  · intro h
    simp [handleDeleteTransaction, jsGet, jsField, List.find?,
      deleteFirst_of_none _ _ h]
  · intro l1 tx l2 hsplit h1 htx
    simp [handleDeleteTransaction, jsGet, jsField, List.find?, hsplit,
      deleteFirst_of_first _ l1 tx l2 h1 htx]

theorem claim_C7_witness :
    ([⟨"a", some 3, "Coffee beans", "food", "expense", "2025-09-01", some 0⟩] =
        ([] : List Transaction) ++
          (⟨"a", some 3, "Coffee beans", "food", "expense", "2025-09-01", some 0⟩ : Transaction) :: [] ∧
      strIncludes (lcStr "Coffee beans") (lcStr "COFFEE") = true) ∧
    handleDeleteTransaction
        ⟨[⟨"a", some 3, "Coffee beans", "food", "expense", "2025-09-01", some 0⟩], [], []⟩
        (Js.obj [("description", Js.str "COFFEE")]) =
      .ok ({ success := true,
             data := some (txToJs ⟨"a", some 3, "Coffee beans", "food", "expense", "2025-09-01", some 0⟩),
             message := "Deleted transaction: " ++ "Coffee beans" ++
               " ($" ++ numTemplate (some 3) ++ ")" },
           ⟨[], [], []⟩) := by
  refine ⟨⟨by simp, by decide⟩, ?_⟩
  exact (claim_C7_delete
      ⟨[⟨"a", some 3, "Coffee beans", "food", "expense", "2025-09-01", some 0⟩], [], []⟩
      "COFFEE").2 [] _ [] (by simp) (by simp) (by decide)

/-! ## Conversation-memory bound (claim C8) -/

def messagesOf (st : Store) (cid : String) : List ConversationMessage :=
  loadConversation st cid

/-- One `saveMessage` invocation, as an event. -/
structure SaveEvt where
  role : String
  content : String
  convId : String
  now : Int
deriving Repr, DecidableEq

def applySaves (st : Store) (evs : List SaveEvt) : Store :=
  evs.foldl (fun s e => saveMessage s e.role e.content e.convId e.now) st

/-- The messages a sequence of saves appends to conversation `cid`. -/
def msgsFor (cid : String) (evs : List SaveEvt) : List ConversationMessage :=
  (evs.filter (fun e => e.convId == cid)).map
    (fun e => ⟨e.role, e.content, e.now⟩)

theorem recGet_recPut_same (l : List (String × α)) (k : String) (v : α) :
    recGet (recPut l k v) k = some v := by
  induction l with
  | nil => simp [recPut, recGet, List.find?]
  | cons e rest ih =>
    by_cases h : e.1 = k
    · simp [recPut, h, recGet, List.find?]
    · simp only [recPut, if_neg h]
      simpa [recGet, List.find?, h] using ih

theorem recGet_recPut_other (l : List (String × α)) (k k' : String) (v : α)
    (h : k' ≠ k) : recGet (recPut l k v) k' = recGet l k' := by
  have hk : k ≠ k' := Ne.symm h
  induction l with
  | nil => simp [recPut, recGet, List.find?, hk]
  | cons e rest ih =>
    obtain ⟨ek, ev⟩ := e
    by_cases he : ek = k
    · subst he
      simp [recPut, recGet, List.find?, hk]
    · by_cases he' : ek = k'
      · simp [recPut, he, he', h, recGet, List.find?]
      · simp only [recPut, if_neg he]
        simpa [recGet, List.find?, he'] using ih

theorem takeLast_of_le (n : Nat) (l : List α) (h : l.length ≤ n) :
    takeLast n l = l := by
  simp [takeLast, Nat.sub_eq_zero_of_le h]

theorem length_takeLast (n : Nat) (l : List α) :
    (takeLast n l).length = min n l.length := by
  simp [takeLast]; omega

theorem takeLast_append_eq (n : Nat) (A B : List α) :
    takeLast n (takeLast n A ++ B) = takeLast n (A ++ B) := by
  by_cases h : A.length ≤ n
  · rw [takeLast_of_le n A h]
  · have hn : n ≤ A.length := le_of_not_le h
    unfold takeLast
    have hlen : (A.drop (A.length - n)).length = n := by
      simp; omega
    rw [List.length_append, List.length_append, hlen]
    have h1 : n + B.length - n = B.length := by omega
    have h2 : A.length + B.length - n = (A.length - n) + B.length := by omega
    rw [h1, h2, ← List.drop_drop]
    congr 1
    rw [List.drop_append_of_le_length (by omega)]

/-- Effect of one save on its own conversation. -/
theorem saveMessage_messages_same (st : Store) (role content cid : String)
    (now : Int) :
    messagesOf (saveMessage st role content cid now) cid =
      (if 50 < (messagesOf st cid ++
          [(⟨role, content, now⟩ : ConversationMessage)]).length
       then takeLast 50 (messagesOf st cid ++
         [(⟨role, content, now⟩ : ConversationMessage)])
       else messagesOf st cid ++
         [(⟨role, content, now⟩ : ConversationMessage)]) := by
  unfold messagesOf saveMessage loadConversation
  cases h : recGet st.conversations cid with
  | none => simp [h, recGet_recPut_same]
  | some c => simp [h, recGet_recPut_same]

/-- A save leaves every other conversation's messages unchanged. -/
theorem saveMessage_messages_other (st : Store) (role content cid cid' : String)
    (now : Int) (h : cid' ≠ cid) :
    messagesOf (saveMessage st role content cid now) cid' =
      messagesOf st cid' := by
  unfold messagesOf saveMessage loadConversation
  cases hg : recGet st.conversations cid with
  | none => simp [hg, recGet_recPut_other _ _ _ _ h]
  | some c => simp [hg, recGet_recPut_other _ _ _ _ h]

/-- C8: starting from any store whose conversation holds at most 50
messages (in particular a fresh one), after any sequence of saves the
stored message list of each conversation is exactly the most recent 50
of what was appended to it, in order (oldest evicted first), and never
exceeds 50 messages. -/
theorem claim_C8_memory_bound (evs : List SaveEvt) :
    ∀ (st : Store) (cid : String), (messagesOf st cid).length ≤ 50 →
      messagesOf (applySaves st evs) cid =
        takeLast 50 (messagesOf st cid ++ msgsFor cid evs) ∧
      (messagesOf (applySaves st evs) cid).length ≤ 50 := by
  induction evs with
  | nil =>
    intro st cid h
    constructor
    · simp [applySaves, msgsFor, takeLast_of_le 50 _ h]
    · simpa [applySaves] using h
  | cons e evs ih =>
    intro st cid h
    have hstep : applySaves st (e :: evs) =
        applySaves (saveMessage st e.role e.content e.convId e.now) evs := by
      simp [applySaves]
    by_cases hc : e.convId = cid
    · subst hc
      have hsame := saveMessage_messages_same st e.role e.content e.convId e.now
      have hmf : msgsFor e.convId (e :: evs) =
          (⟨e.role, e.content, e.now⟩ : ConversationMessage) ::
            msgsFor e.convId evs := by
        simp [msgsFor]
      by_cases h50 : 50 < (messagesOf st e.convId ++
          [(⟨e.role, e.content, e.now⟩ : ConversationMessage)]).length
      · rw [if_pos h50] at hsame
        have hb : (messagesOf (saveMessage st e.role e.content e.convId e.now)
            e.convId).length ≤ 50 := by
          rw [hsame, length_takeLast]; omega
        obtain ⟨ih1, ih2⟩ := ih _ e.convId hb
        refine ⟨?_, by rwa [hstep]⟩
        rw [hstep, ih1, hsame, hmf, takeLast_append_eq]
        congr 1
        simp
      · rw [if_neg h50] at hsame
        have hb : (messagesOf (saveMessage st e.role e.content e.convId e.now)
            e.convId).length ≤ 50 := by
          rw [hsame]
          simp only [List.length_append, List.length_singleton] at h50 ⊢
          omega
        obtain ⟨ih1, ih2⟩ := ih _ e.convId hb
        refine ⟨?_, by rwa [hstep]⟩
        rw [hstep, ih1, hsame, hmf]
        congr 1
        simp
    · have hother := saveMessage_messages_other st e.role e.content e.convId cid
        e.now (fun hne => hc hne.symm)
      obtain ⟨ih1, ih2⟩ := ih _ cid (by rwa [hother])
      refine ⟨?_, by rwa [hstep]⟩
      rw [hstep, ih1, hother]
      have hmf : msgsFor cid (e :: evs) = msgsFor cid evs := by
        simp [msgsFor, hc]
      rw [hmf]

theorem claim_C8_witness :
    (messagesOf emptyStore "default").length ≤ 50 ∧
    messagesOf (applySaves emptyStore [⟨"user", "hi", "default", 0⟩]) "default" =
      takeLast 50 (messagesOf emptyStore "default" ++
        msgsFor "default" [⟨"user", "hi", "default", 0⟩]) ∧
    (messagesOf (applySaves emptyStore [⟨"user", "hi", "default", 0⟩]) "default").length ≤ 50 :=
  ⟨by decide,
   (claim_C8_memory_bound [⟨"user", "hi", "default", 0⟩] emptyStore "default"
     (by decide)).1,
   (claim_C8_memory_bound [⟨"user", "hi", "default", 0⟩] emptyStore "default"
     (by decide)).2⟩

/-! ## Current-year scoping of the month fast paths (claim C10) -/

theorem monthDatePred_false_of_year (cy : Int) (tm : Nat) (t : Transaction)
    (hy : txYearOf t ≠ some cy) : monthDatePred cy tm t = false := by
  unfold monthDatePred
  have hb : (txYearOf t == some cy) = false := by
    simp [hy]
  simp [hb]

/-- C10: a transaction whose date-string year is not the current year
is invisible to the month-total fast path, the month-scoped day-extreme
fast path, and the month filter of `get_spending_summary` — inserting
it anywhere in the list changes none of their answers (so it is
excluded from the total, the count, and the per-day grouping). -/
theorem claim_C10_current_year (clock : Clock) (l1 l2 : List Transaction)
    (t : Transaction) (monthName : String) (tm tmf : Nat)
    (buds : List (String × JsNum)) (convs : List (String × Conversation))
    (hy : txYearOf t ≠ some clock.currentYear)
    (hm : monthMapAbbrev (lcStr monthName) = some tm)
    (hmf : monthMapFull (lcStr monthName) = some tmf) :
    calculateMonthlySpending clock.currentYear (l1 ++ t :: l2) (lcStr monthName) =
      calculateMonthlySpending clock.currentYear (l1 ++ l2) (lcStr monthName) ∧
    calculateDailySpending clock.currentYear (l1 ++ t :: l2) (some monthName) =
      calculateDailySpending clock.currentYear (l1 ++ l2) (some monthName) ∧
    (handleGetSpendingSummary clock ⟨l1 ++ t :: l2, buds, convs⟩
        (Js.obj [("month", Js.str monthName)])).map Prod.fst =
      (handleGetSpendingSummary clock ⟨l1 ++ l2, buds, convs⟩
        (Js.obj [("month", Js.str monthName)])).map Prod.fst := by
  have hpt : monthDatePred clock.currentYear tm t = false :=
    monthDatePred_false_of_year _ tm t hy
  have hptf : monthDatePred clock.currentYear tmf t = false :=
    monthDatePred_false_of_year _ tmf t hy
  have hmonthly : monthlyFilter clock.currentYear tm (l1 ++ t :: l2) =
      monthlyFilter clock.currentYear tm (l1 ++ l2) := by
    unfold monthlyFilter
    simp [List.filter_append, List.filter_cons, hpt]
  have hdouble : ∀ (p : Transaction → Bool) (tmx : Nat),
      monthDatePred clock.currentYear tmx t = false →
      ((l1 ++ t :: l2).filter p).filter (monthDatePred clock.currentYear tmx) =
        ((l1 ++ l2).filter p).filter (monthDatePred clock.currentYear tmx) := by
    intro p tmx hfx
    by_cases hp : p t
    · simp [List.filter_append, List.filter_cons, hp, hfx]
    · simp [List.filter_append, List.filter_cons, hp]
  refine ⟨?_, ?_, ?_⟩
  · unfold calculateMonthlySpending
    simp only [hm, hmonthly]
  · unfold calculateDailySpending dailyFilter
    simp only [hm, hdouble (fun t => t.type == "expense") tm hpt]
  · have hne : monthName ≠ "" := by
      intro h0
      rw [h0] at hmf
      simp [lcStr, monthMapFull] at hmf
    have hnc : monthName ≠ "current" := by
      intro h0
      rw [h0] at hmf
      have h2 : monthMapFull (lcStr "current") = none := by decide
      rw [h2] at hmf
      exact Option.noConfusion hmf
    unfold handleGetSpendingSummary
    simp only [jsGet, jsField, List.reverse_cons, List.reverse_nil,
      List.nil_append, List.find?]
    simp [hne, hnc, jsTruthy]
    simp [hmf, List.filter_cons, hptf, handleGetSpendingSummary.summaryResult,
      Except.map]

theorem claim_C10_witness :
    (txYearOf ⟨"x", some 50, "old", "food", "expense", "2024-09-05", some 0⟩ ≠
        some ((⟨"2025-10-11", 2025, "2025-10"⟩ : Clock)).currentYear ∧
      monthMapAbbrev (lcStr "September") = some 8 ∧
      monthMapFull (lcStr "September") = some 8) ∧
    calculateMonthlySpending
        ((⟨"2025-10-11", 2025, "2025-10"⟩ : Clock)).currentYear
        ([] ++ (⟨"x", some 50, "old", "food", "expense", "2024-09-05", some 0⟩ : Transaction) ::
          [⟨"y", some 20, "new", "food", "expense", "2025-09-01", some 0⟩])
        (lcStr "September") =
      calculateMonthlySpending
        ((⟨"2025-10-11", 2025, "2025-10"⟩ : Clock)).currentYear
        ([] ++ [⟨"y", some 20, "new", "food", "expense", "2025-09-01", some 0⟩])
        (lcStr "September") := by
  refine ⟨⟨by decide, by decide, by decide⟩, ?_⟩
  exact (claim_C10_current_year ⟨"2025-10-11", 2025, "2025-10"⟩ []
    [⟨"y", some 20, "new", "food", "expense", "2025-09-01", some 0⟩]
    ⟨"x", some 50, "old", "food", "expense", "2024-09-05", some 0⟩
    "September" 8 8 [] [] (by decide) (by decide) (by decide)).1

/-! ## Zero-match responses (claim C2) -/

theorem recGet_breakdown_none (c : String) :
    ∀ (l : List Transaction) (acc : List (String × JsNum)),
      recGet acc c = none → (∀ t ∈ l, t.category ≠ c) →
      recGet (l.foldl (fun a t => accumAmount a t.category t.amount) acc) c = none := by
  intro l
  induction l with
  | nil => intro acc h _; simpa using h
  | cons t rest ih =>
    intro acc h hall
    have hne : c ≠ t.category := fun e => hall t (by simp) e.symm
    simp only [List.foldl_cons]
    exact ih _ (by rw [accumAmount, recGet_recPut_other _ _ _ _ hne]; exact h)
      (fun t' ht' => hall t' (by simp [ht']))

/-- C2, counterexample: April has zero matching transactions on an
empty ledger, yet the month fast path reports a positive fabricated
amount ($180.00 across 5 transactions) instead of a no-data response;
and a category with zero matches gets a no-data response that does
not cite the overall total ($20.00 never appears in it). -/
theorem claim_C2_counterexample :
    monthFastPathResponse 2025 [] "april" =
      "In April, you spent $180.00 across 5 transactions. " ∧
    categoryFastPathResponse
        [⟨"1", some 20, "grocery", "food", "expense", "2025-09-01", some 0⟩]
        "transportation" =
      "You haven't recorded any spending in the transportation category yet. Your current spending categories are: food." ∧
    strIncludes
      (categoryFastPathResponse
        [⟨"1", some 20, "grocery", "food", "expense", "2025-09-01", some 0⟩]
        "transportation") "20.00" = false := by
  refine ⟨by decide, by decide, by decide⟩

/-- C2 (amended): a month query whose month either is unknown to the
router or has zero matching expense transactions *and lies outside the
hardcoded April–August sample table* yields the explicit no-data
response, which cites the overall total spending; a month inside the
sample table instead reports the fabricated sample amount (see the
counterexample).  A category query with zero matching expense
transactions yields a no-data response that names the recorded
categories but does not cite the overall total. -/
theorem claim_C2_amended (cy : Int) (txs : List Transaction)
    (monthName category : String)
    (h1 : ∀ tm, monthMapAbbrev monthName = some tm →
      monthlyFilter cy tm txs = [] ∧ sampleAmounts tm = none)
    (h2 : ∀ t ∈ txs, t.category ≠ category) :
    monthFastPathResponse cy txs monthName =
      "I don't have spending data for " ++ monthName ++
        ". Your available data shows spending in the current month ($" ++
        toFixed 2 (expenseSumOf txs) ++ ")." ∧
    categoryFastPathResponse txs category =
      "You haven't recorded any spending in the " ++ category ++
        " category yet. Your current spending categories are: " ++
        joinSep ", " ((categoryBreakdownOf txs).map (fun e => e.1)) ++ "." := by
  constructor
  · unfold monthFastPathResponse calculateMonthlySpending
    cases mm : monthMapAbbrev monthName with
    | none => simp
    | some tm =>
      obtain ⟨hempty, hsample⟩ := h1 tm mm
      simp [hempty, hsample]
  · have hnone : recGet (categoryBreakdownOf txs) category = none := by
      unfold categoryBreakdownOf
      exact recGet_breakdown_none category _ []
        (by simp [recGet, List.find?])
        (fun t ht => h2 t (List.mem_of_mem_filter ht))
    unfold categoryFastPathResponse
    simp [hnone, orZero, numTruthy, jsGtB]

theorem claim_C2_witness :
    ((∀ tm, monthMapAbbrev "march" = some tm →
        monthlyFilter 2025 tm
          [⟨"1", some 20, "grocery", "food", "expense", "2025-09-01", some 0⟩] = [] ∧
          sampleAmounts tm = none) ∧
      (∀ t ∈ [(⟨"1", some 20, "grocery", "food", "expense", "2025-09-01", some 0⟩ : Transaction)],
        t.category ≠ "transportation")) ∧
    (monthFastPathResponse 2025
        [⟨"1", some 20, "grocery", "food", "expense", "2025-09-01", some 0⟩] "march" =
      "I don't have spending data for " ++ "march" ++
        ". Your available data shows spending in the current month ($" ++
        toFixed 2 (expenseSumOf
          [⟨"1", some 20, "grocery", "food", "expense", "2025-09-01", some 0⟩]) ++ ")." ∧
     categoryFastPathResponse
        [⟨"1", some 20, "grocery", "food", "expense", "2025-09-01", some 0⟩]
        "transportation" =
      "You haven't recorded any spending in the " ++ "transportation" ++
        " category yet. Your current spending categories are: " ++
        joinSep ", " ((categoryBreakdownOf
          [⟨"1", some 20, "grocery", "food", "expense", "2025-09-01", some 0⟩]).map
          (fun e => e.1)) ++ ".") := by
  have hm1 : ∀ tm, monthMapAbbrev "march" = some tm →
      monthlyFilter 2025 tm
        [⟨"1", some 20, "grocery", "food", "expense", "2025-09-01", some 0⟩] = [] ∧
        sampleAmounts tm = none := by
    intro tm htm
    have h2 : monthMapAbbrev "march" = some 2 := by decide
    rw [h2] at htm
    cases htm
    exact ⟨by decide, by decide⟩
  exact ⟨⟨hm1, by decide⟩,
    claim_C2_amended 2025
      [⟨"1", some 20, "grocery", "food", "expense", "2025-09-01", some 0⟩]
      "march" "transportation" hm1 (by decide)⟩

/-! ## Extraction truncation and the raw-text fallback (claim C4) -/

theorem str_append_left_ne (a b : String) (h : a ≠ "") : a ++ b ≠ "" := by
  intro he
  apply h
  have hd : a.data ++ b.data = [] := by rw [← String.data_append, he]
  exact String.ext (List.append_eq_nil.mp hd).1

/-- The store a `saveMessage` leaves: ledger and budgets untouched. -/
theorem saveMessage_transactions (st : Store) (r c i : String) (n : Int) :
    (saveMessage st r c i n).transactions = st.transactions := rfl

theorem saveMessage_budgets (st : Store) (r c i : String) (n : Int) :
    (saveMessage st r c i n).budgets = st.budgets := rfl

/-- C4, counterexample: a directive whose arguments object itself
nests an object (three brace levels) is captured by the regex with its
final close brace missing — not extracted in full — and the truncated
literal fails to parse, so the whole batch is abandoned. -/
theorem claim_C4_counterexample :
    findFunctionCalls
        "FUNCTION_CALL: \x7b\"name\": \"set_budget\", \"arguments\": \x7b\"nested\": \x7b\"x\": 1\x7d\x7d\x7d" =
      ["\x7b\"name\": \"set_budget\", \"arguments\": \x7b\"nested\": \x7b\"x\": 1\x7d\x7d"] ∧
    ("\x7b\"name\": \"set_budget\", \"arguments\": \x7b\"nested\": \x7b\"x\": 1\x7d\x7d" : String) ≠
      "\x7b\"name\": \"set_budget\", \"arguments\": \x7b\"nested\": \x7b\"x\": 1\x7d\x7d\x7d" ∧
    buildCalls
        ["\x7b\"name\": \"set_budget\", \"arguments\": \x7b\"nested\": \x7b\"x\": 1\x7d\x7d"] =
      none := by
  refine ⟨by decide, by decide, by decide⟩

/-- C4 (amended): the regex extractor handles at most one level of
brace nesting, and the brace-counting pass only ever truncates its
capture further; whenever any captured literal fails to parse (deeper
nesting, unbalanced delimiters), the orchestrator returns the raw
model text unchanged, executes no action (ledger and budgets
untouched; only the conversation log gains the turn), and raises no
fault. -/
theorem claim_C4_amended (clock : Clock) (uuid : Nat → String)
    (oracles : Oracles) (rag : Except String RAGContext) (st : Store)
    (message convId : String) (now : Int) (txt : String)
    (hmain : ∀ ms, oracles.mainAI ms = .ok (some txt))
    (htxt : txt ≠ "")
    (hfail : buildCalls (findFunctionCalls txt) = none) :
    (llmPhase clock uuid oracles rag st message convId now).1.response = txt ∧
    (llmPhase clock uuid oracles rag st message convId now).2.transactions =
      st.transactions ∧
    (llmPhase clock uuid oracles rag st message convId now).2.budgets =
      st.budgets ∧
    (llmPhase clock uuid oracles rag st message convId now).1.stepsExecuted =
      none ∧
    (llmPhase clock uuid oracles rag st message convId now).2 =
      saveMessage st "assistant" txt convId now := by
  have hcap : ¬ (findFunctionCalls txt).isEmpty = true := by
    intro he
    rw [List.isEmpty_iff] at he
    rw [he] at hfail
    exact Option.noConfusion hfail
  unfold llmPhase directivePhase
  simp only [hmain, Option.getD_some, if_neg htxt, hfail]
  simp [hcap]
  exact ⟨saveMessage_transactions st "assistant" txt convId now,
    saveMessage_budgets st "assistant" txt convId now⟩

theorem claim_C4_witness :
    ((∀ ms, (Oracles.mk
        (fun _ => .ok (some "FUNCTION_CALL: \x7b\"name\": \"set_budget\", \"arguments\": \x7b\"nested\": \x7b\"x\": 1\x7d\x7d\x7d"))
        (fun _ => .ok none)).mainAI ms =
          .ok (some "FUNCTION_CALL: \x7b\"name\": \"set_budget\", \"arguments\": \x7b\"nested\": \x7b\"x\": 1\x7d\x7d\x7d")) ∧
      ("FUNCTION_CALL: \x7b\"name\": \"set_budget\", \"arguments\": \x7b\"nested\": \x7b\"x\": 1\x7d\x7d\x7d" : String) ≠ "" ∧
      buildCalls (findFunctionCalls
        "FUNCTION_CALL: \x7b\"name\": \"set_budget\", \"arguments\": \x7b\"nested\": \x7b\"x\": 1\x7d\x7d\x7d") = none) ∧
    (llmPhase ⟨"2025-10-11", 2025, "2025-10"⟩ (fun _ => "u") (Oracles.mk
        (fun _ => .ok (some "FUNCTION_CALL: \x7b\"name\": \"set_budget\", \"arguments\": \x7b\"nested\": \x7b\"x\": 1\x7d\x7d\x7d"))
        (fun _ => .ok none)) (.ok emptyRAG) emptyStore "set my budget" "default"
        0).1.response =
      "FUNCTION_CALL: \x7b\"name\": \"set_budget\", \"arguments\": \x7b\"nested\": \x7b\"x\": 1\x7d\x7d\x7d" := by
  refine ⟨⟨fun ms => rfl, by decide, by decide⟩, ?_⟩
  exact (claim_C4_amended ⟨"2025-10-11", 2025, "2025-10"⟩ (fun _ => "u") _
    (.ok emptyRAG) emptyStore "set my budget" "default" 0 _
    (fun ms => rfl) (by decide) (by decide)).1

/-! ## Retrieval faults degrade to the empty context (claim C9) -/

theorem handleAddTransaction_msg (clock : Clock) (uuid : String) (st : Store)
    (args : Js) (r : FunctionResult) (st' : Store)
    (h : handleAddTransaction clock uuid st args = .ok (r, st')) :
    r.message ≠ "" := by
  unfold handleAddTransaction at h
  by_cases hn : args = Js.jsNull
  · simp [hn] at h
  · simp only [if_neg hn] at h
    obtain ⟨h1, _⟩ := Prod.mk.injEq .. ▸ (Except.ok.injEq .. ▸ h)
    rw [← h1]
    repeat apply str_append_left_ne
    decide

theorem handleSetBudget_msg (st : Store) (args : Js) (r : FunctionResult)
    (st' : Store) (h : handleSetBudget st args = .ok (r, st')) :
    r.message ≠ "" := by
  unfold handleSetBudget at h
  by_cases hn : args = Js.jsNull
  · simp [hn] at h
  · simp only [if_neg hn] at h
    obtain ⟨h1, _⟩ := Prod.mk.injEq .. ▸ (Except.ok.injEq .. ▸ h)
    rw [← h1]
    repeat apply str_append_left_ne
    decide

theorem handleGetSpendingSummary_msg (clock : Clock) (st : Store) (args : Js)
    (r : FunctionResult) (st' : Store)
    (h : handleGetSpendingSummary clock st args = .ok (r, st')) :
    r.message ≠ "" := by
  have hsr : ∀ (c m : Option Js) (f : List Transaction),
      (handleGetSpendingSummary.summaryResult st c m f).1.message ≠ "" := by
    intro c m f
    repeat apply str_append_left_ne
    decide
  unfold handleGetSpendingSummary at h
  by_cases hn : args = Js.jsNull
  · simp [hn] at h
  · simp only [if_neg hn] at h
    split at h
    · split at h
      · split at h
        · obtain ⟨h1, _⟩ := Prod.mk.injEq .. ▸ (Except.ok.injEq .. ▸ h)
          rw [← h1]; exact hsr _ _ _
        · exact Except.noConfusion h
      · obtain ⟨h1, _⟩ := Prod.mk.injEq .. ▸ (Except.ok.injEq .. ▸ h)
        rw [← h1]; exact hsr _ _ _
    · obtain ⟨h1, _⟩ := Prod.mk.injEq .. ▸ (Except.ok.injEq .. ▸ h)
      rw [← h1]; exact hsr _ _ _

theorem handleGetBudgetStatus_msg (clock : Clock) (st : Store)
    (r : FunctionResult) (st' : Store)
    (h : handleGetBudgetStatus clock st = .ok (r, st')) :
    r.message ≠ "" := by
  unfold handleGetBudgetStatus at h
  obtain ⟨h1, _⟩ := Prod.mk.injEq .. ▸ (Except.ok.injEq .. ▸ h)
  rw [← h1]
  repeat apply str_append_left_ne
  decide

theorem handleDeleteTransaction_msg (st : Store) (args : Js)
    (r : FunctionResult) (st' : Store)
    (h : handleDeleteTransaction st args = .ok (r, st')) :
    r.message ≠ "" := by
  unfold handleDeleteTransaction at h
  by_cases hn : args = Js.jsNull
  · simp [hn] at h
  · simp only [if_neg hn] at h
    split at h
    · split at h
      · obtain ⟨h1, _⟩ := Prod.mk.injEq .. ▸ (Except.ok.injEq .. ▸ h)
        rw [← h1]
        repeat apply str_append_left_ne
        decide
      · obtain ⟨h1, _⟩ := Prod.mk.injEq .. ▸ (Except.ok.injEq .. ▸ h)
        rw [← h1]
        repeat apply str_append_left_ne
        decide
    · exact Except.noConfusion h

/-- Every function result carries a non-empty human-readable message. -/
theorem executeFunction_msg (clock : Clock) (uuid : String) (st : Store)
    (fc : FunctionCall) : (executeFunction clock uuid st fc).1.message ≠ "" := by
  unfold executeFunction
  cases hp : jsonParse fc.arguments with
  | none =>
    repeat apply str_append_left_ne
    decide
  | some args =>
    simp only []
    split
    · rename_i r hr
      split at hr
      · exact handleAddTransaction_msg _ _ _ _ _ _ hr
      · exact handleSetBudget_msg _ _ _ _ hr
      · exact handleGetSpendingSummary_msg _ _ _ _ _ hr
      · exact handleGetBudgetStatus_msg _ _ _ _ hr
      · exact handleDeleteTransaction_msg _ _ _ _ hr
      · obtain ⟨h1, _⟩ := Prod.mk.injEq .. ▸ (Except.ok.injEq .. ▸ hr)
        rw [← h1]
        repeat apply str_append_left_ne
        decide
    · repeat apply str_append_left_ne
      decide

theorem execAll_msgs (clock : Clock) (uuid : Nat → String) :
    ∀ (fcs : List FunctionCall) (k : Nat) (st : Store),
      ∀ r ∈ (execAll clock uuid k st fcs).1, r.message ≠ "" := by
  intro fcs
  induction fcs with
  | nil => intro k st r hr; simp [execAll] at hr
  | cons fc rest ih =>
    intro k st r hr
    simp only [execAll] at hr
    rcases List.mem_cons.mp hr with he | he
    · rw [he]; exact executeFunction_msg clock (uuid k) st fc
    · exact ih (k + 1) _ r he

theorem joinSep_ne (sep : String) :
    ∀ l : List String, l ≠ [] → (∀ s ∈ l, s ≠ "") → joinSep sep l ≠ "" := by
  intro l
  induction l with
  | nil => intro h _; exact absurd rfl h
  | cons s rest ih =>
    intro _ hall
    cases rest with
    | nil => simpa [joinSep] using hall s (by simp)
    | cons t ts =>
      simp only [joinSep]
      exact str_append_left_ne _ _
        (str_append_left_ne _ _ (hall s (by simp)))

theorem buildCalls_length :
    ∀ (caps : List String) (fcs : List FunctionCall),
      buildCalls caps = some fcs → fcs.length = caps.length := by
  intro caps
  induction caps with
  | nil => intro fcs h; simp [buildCalls] at h; simp [← h]
  | cons c rest ih =>
    intro fcs h
    simp only [buildCalls] at h
    cases hb : buildCall c with
    | none => rw [hb] at h; exact Option.noConfusion h
    | some fc =>
      rw [hb] at h
      cases hr : buildCalls rest with
      | none => rw [hr] at h; exact Option.noConfusion h
      | some l =>
        rw [hr] at h
        simp at h
        rw [← h]
        simp [ih l hr]

/-- The directive phase always yields a non-empty response, whatever
the confirmation oracle does. -/
theorem directivePhase_response_ne (clock : Clock) (uuid : Nat → String)
    (oracles : Oracles) (st : Store) (message convId : String) (now : Int)
    (errorResponse responseText : String)
    (herr : errorResponse ≠ "") (hrt : responseText ≠ "") :
    (directivePhase clock uuid oracles st message convId now errorResponse
      responseText).1.response ≠ "" := by
  unfold directivePhase
  by_cases hc : (findFunctionCalls responseText).isEmpty = true
  · simpa [hc] using hrt
  · simp only [if_neg hc]
    cases hb : buildCalls (findFunctionCalls responseText) with
    | none => simpa using hrt
    | some fcs =>
      simp only []
      have hlen := execAll_length clock uuid fcs 0 st
      have hjoin : joinSep " "
          (((execAll clock uuid 0 st fcs).1).map (fun fr => fr.message)) ≠ "" := by
        apply joinSep_ne
        · intro hnil
          have h0 : (execAll clock uuid 0 st fcs).1 = [] :=
            List.map_eq_nil_iff.mp hnil
          rw [h0] at hlen
          have hfc : fcs = [] := List.eq_nil_of_length_eq_zero hlen.symm
          rw [hfc] at hb
          have hlc := buildCalls_length _ _ hb
          simp only [List.length_nil] at hlc
          apply hc
          rw [List.isEmpty_iff]
          exact List.eq_nil_of_length_eq_zero hlc.symm
        · intro s hs
          obtain ⟨r, hr, hrs⟩ := List.mem_map.mp hs
          rw [← hrs]
          exact execAll_msgs clock uuid fcs 0 st r hr
      cases hcf : oracles.confirmAI
          (confirmMessagesOf message fcs (execAll clock uuid 0 st fcs).1
            (execAll clock uuid 0 st fcs).2.transactions) with
      | error _ => simpa using herr
      | ok c =>
        simp only []
        cases c with
        | none => simpa using hjoin
        | some s =>
          by_cases hs : s = ""
          · simpa [hs] using hjoin
          · simp [hs]

/-- C9: a fault anywhere in the retrieval subsystem is swallowed — the
request runs exactly as it would with an empty retrieval context, and
for every oracle behaviour the produced response is a non-empty
string (the request never aborts). -/
theorem claim_C9_retrieval_fault (clock : Clock) (uuid : Nat → String)
    (oracles : Oracles) (st : Store) (message convId : String) (now : Int)
    (e : String) :
    llmPhase clock uuid oracles (.error e) st message convId now =
      llmPhase clock uuid oracles (.ok emptyRAG) st message convId now ∧
    (llmPhase clock uuid oracles (.error e) st message convId now).1.response ≠
      "" := by
  constructor
  · rfl
  · unfold llmPhase
    dsimp only
    split
    · show _ ≠ ""
      repeat apply str_append_left_ne
      decide
    · apply directivePhase_response_ne
      · repeat apply str_append_left_ne
        decide
      · split
        · repeat apply str_append_left_ne
          decide
        · rename_i hne
          exact hne

/-! ## Post-batch recomputation of aggregates (claim C6) -/

theorem jsSum_append_one (l : List JsNum) (x : JsNum) :
    jsSum (l ++ [x]) = jsAdd (jsSum l) x := by
  simp [jsSum, List.foldl_append]

theorem expenseSumOf_append (txs : List Transaction) (tx : Transaction)
    (hty : tx.type = "expense") :
    expenseSumOf (txs ++ [tx]) = jsAdd (expenseSumOf txs) tx.amount := by
  unfold expenseSumOf
  rw [List.filter_append]
  simp [List.filter_cons, hty, jsSum_append_one]

/-- The transaction `handleAddTransaction` appends for parsed
arguments `args`. -/
theorem handleAddTransaction_spec (clock : Clock) (uuid : String)
    (st : Store) (args : Js) (hnn : args ≠ .jsNull) :
    ∃ r tx, handleAddTransaction clock uuid st args =
        .ok (r, { st with transactions := st.transactions ++ [tx] }) ∧
      tx.amount = parseFloatJs (jsGet args "amount") ∧
      tx.type = jsTemplateOpt (jsGet args "type") ∧ r.success = true := by
  unfold handleAddTransaction
  simp only [if_neg hnn]
  exact ⟨_, _, rfl, rfl, rfl, rfl⟩

/-- C6: after an `add_transaction` directive followed by a budget
check, the aggregates are those of the post-batch store: total
expenses grow by the added amount exactly once, exactly one record is
appended, the second directive runs against the store the first
produced, and the confirmation call's user message embeds the
`UPDATED FINANCIAL STATUS` block recomputed from that post-batch
transaction list (whose expense figure is the updated sum). -/
theorem claim_C6_recompute (clock : Clock) (uuid : Nat → String) (k : Nat)
    (st : Store) (addArgs statusArgs message : String) (args : Js) (q : ℚ)
    (hparse : jsonParse addArgs = some args)
    (hnn : args ≠ .jsNull)
    (hq : parseFloatJs (jsGet args "amount") = some q)
    (htype : jsGet args "type" = some (Js.str "expense")) :
    expenseSumOf (execAll clock uuid k st
        [⟨"add_transaction", addArgs⟩, ⟨"get_budget_status", statusArgs⟩]).2.transactions =
      jsAdd (expenseSumOf st.transactions) (some q) ∧
    (execAll clock uuid k st
        [⟨"add_transaction", addArgs⟩, ⟨"get_budget_status", statusArgs⟩]).2.transactions.length =
      st.transactions.length + 1 ∧
    (execAll clock uuid k st
        [⟨"add_transaction", addArgs⟩, ⟨"get_budget_status", statusArgs⟩]).1 =
      [(executeFunction clock (uuid k) st ⟨"add_transaction", addArgs⟩).1,
       (executeFunction clock (uuid (k + 1))
         (executeFunction clock (uuid k) st ⟨"add_transaction", addArgs⟩).2
         ⟨"get_budget_status", statusArgs⟩).1] ∧
    (∀ fcs results,
      ∃ pre post, ∀ postTxs, (confirmMessagesOf message fcs results postTxs).map
          (fun m => m.content) =
        [confirmSystemText, message,
         pre ++ updatedFinCtxStr postTxs ++ post]) ∧
    (∀ postTxs, ∃ pre post, updatedFinCtxStr postTxs =
      pre ++ toFixed 2 (expenseSumOf postTxs) ++ post) := by
  obtain ⟨r, tx, hadd, htxa, htxt, hrs⟩ :=
    handleAddTransaction_spec clock (uuid k) st args hnn
  have hexec1 : executeFunction clock (uuid k) st ⟨"add_transaction", addArgs⟩ =
      (r, { st with transactions := st.transactions ++ [tx] }) := by
    unfold executeFunction
    rw [hparse]
    simp only [hadd]
  have hty : tx.type = "expense" := by rw [htxt, htype]; rfl
  have hamt : tx.amount = some q := by rw [htxa, hq]
  have hst2 : ∀ st1 : Store,
      (executeFunction clock (uuid (k + 1)) st1
        ⟨"get_budget_status", statusArgs⟩).2.transactions = st1.transactions := by
    intro st1
    unfold executeFunction
    cases hp : jsonParse statusArgs with
    | none => rfl
    | some a2 =>
      simp only [handleGetBudgetStatus]
  have hbatch : (execAll clock uuid k st
      [⟨"add_transaction", addArgs⟩, ⟨"get_budget_status", statusArgs⟩]).2 =
      (executeFunction clock (uuid (k + 1))
        { st with transactions := st.transactions ++ [tx] }
        ⟨"get_budget_status", statusArgs⟩).2 := by
    simp [execAll, hexec1]
  refine ⟨?_, ?_, ?_, ?_, ?_⟩
  · rw [hbatch, hst2]
    simp only []
    rw [expenseSumOf_append _ _ hty, hamt]
  · rw [hbatch, hst2]
    simp
  · simp [execAll]
  · intro fcs results
    refine ⟨"Executed " ++ natDigits fcs.length ++ " function(s):" ++ nl ++
        resultsSummaryOf fcs results ++ calculatedSummaryOf fcs results,
      nl ++ nl ++ "Provide a brief confirmation of what was done. Answer ONLY what was asked - do not volunteer balance or financial status unless specifically requested.",
      fun postTxs => ?_⟩
    simp [confirmMessagesOf, String.append_assoc]
  · intro postTxs
    refine ⟨nl ++ nl ++ "UPDATED FINANCIAL STATUS (use these exact numbers):" ++ nl ++
      "- Current Balance: $" ++
        toFixed 2 (jsSub (incomeSumOf postTxs) (expenseSumOf postTxs)) ++ nl ++
      "- Total Income: $" ++ toFixed 2 (incomeSumOf postTxs) ++ nl ++
      "- Total Expenses: $",
      nl ++ "- Total Transactions: " ++ natDigits postTxs.length, ?_⟩
    unfold updatedFinCtxStr
    simp [String.append_assoc]

theorem claim_C6_witness :
    (jsonParse "\x7b\"amount\": 50, \"description\": \"gas\", \"category\": \"transportation\", \"type\": \"expense\"\x7d" =
        some (Js.obj [("amount", Js.num (some 50)), ("description", Js.str "gas"),
          ("category", Js.str "transportation"), ("type", Js.str "expense")]) ∧
      (Js.obj [("amount", Js.num (some 50)), ("description", Js.str "gas"),
        ("category", Js.str "transportation"), ("type", Js.str "expense")]) ≠ Js.jsNull ∧
      parseFloatJs (jsGet (Js.obj [("amount", Js.num (some 50)), ("description", Js.str "gas"),
        ("category", Js.str "transportation"), ("type", Js.str "expense")]) "amount") =
        some (50 : ℚ) ∧
      jsGet (Js.obj [("amount", Js.num (some 50)), ("description", Js.str "gas"),
        ("category", Js.str "transportation"), ("type", Js.str "expense")]) "type" =
        some (Js.str "expense")) ∧
    expenseSumOf (execAll ⟨"2025-10-11", 2025, "2025-10"⟩ (fun _ => "u") 0 emptyStore
        [⟨"add_transaction",
          "\x7b\"amount\": 50, \"description\": \"gas\", \"category\": \"transportation\", \"type\": \"expense\"\x7d"⟩,
         ⟨"get_budget_status", "\x7b\x7d"⟩]).2.transactions =
      jsAdd (expenseSumOf emptyStore.transactions) (some (50 : ℚ)) :=
  ⟨⟨by decide, by decide, by decide, by decide⟩,
   (claim_C6_recompute ⟨"2025-10-11", 2025, "2025-10"⟩ (fun _ => "u") 0 emptyStore
     "\x7b\"amount\": 50, \"description\": \"gas\", \"category\": \"transportation\", \"type\": \"expense\"\x7d"
     "\x7b\x7d" "add gas"
     (Js.obj [("amount", Js.num (some 50)), ("description", Js.str "gas"),
       ("category", Js.str "transportation"), ("type", Js.str "expense")]) 50
     (by decide) (by decide) (by decide) (by decide)).1⟩

/-! ## Router answers against naive recomputation (claim C1) -/

theorem orZero_some_some (x : ℚ) : orZero (some (some x)) = some x := by
  by_cases hx : x = 0
  · simp [orZero, numTruthy, hx]
  · simp [orZero, numTruthy, hx]

theorem orZero_isSome (o : Option JsNum) : ∃ x, orZero o = some x := by
  rcases o with _ | v
  · exact ⟨0, rfl⟩
  · rcases v with _ | q
    · exact ⟨0, rfl⟩
    · rcases eq_or_ne q 0 with h | h
      · exact ⟨0, by simp [orZero, numTruthy, h]⟩
      · exact ⟨q, by simp [orZero, numTruthy, h]⟩

/-- The `(acc[k] || 0) + amount` accumulation agrees with a plain
left fold of the amounts filtered to the key, whenever the amounts are
numbers (`NaN`-free). -/
theorem accum_fold (c : String) :
    ∀ (l : List Transaction) (acc : List (String × JsNum)),
      (∀ t ∈ l, ∃ q, t.amount = some q) →
      orZero (recGet (l.foldl (fun a t => accumAmount a t.category t.amount) acc) c) =
        List.foldl jsAdd (orZero (recGet acc c))
          ((l.filter (fun t => t.category == c)).map (fun t => t.amount)) := by
  intro l
  induction l with
  | nil => intro acc _; rfl
  | cons t rest ih =>
    intro acc hl
    obtain ⟨a, ha⟩ := hl t (by simp)
    obtain ⟨x, hx⟩ := orZero_isSome (recGet acc c)
    have hrest : ∀ t' ∈ rest, ∃ q, t'.amount = some q :=
      fun t' ht' => hl t' (by simp [ht'])
    by_cases hc : t.category = c
    · have hstep : orZero (recGet (accumAmount acc t.category t.amount) c) =
          jsAdd (orZero (recGet acc c)) t.amount := by
        rw [accumAmount, hc, recGet_recPut_same, ha, hx]
        exact orZero_some_some _
      simp only [List.foldl_cons, List.filter_cons, List.map_cons]
      rw [ih _ hrest, hstep]
      simp [hc]
    · have hget : recGet (accumAmount acc t.category t.amount) c =
          recGet acc c := by
        rw [accumAmount, recGet_recPut_other _ _ _ _ (fun e => hc e.symm)]
      simp only [List.foldl_cons, List.filter_cons]
      rw [ih _ hrest]
      have hbc : (t.category == c) = false := by simp [hc]
      simp [hbc, hget]

/-- A nonempty fold of positive numbers from a nonnegative seed is a
positive number. -/
theorem jsSum_pos_aux :
    ∀ (l : List JsNum) (acc : ℚ),
      (∀ x ∈ l, ∃ q, x = some q ∧ 0 < q) →
      ∃ s, List.foldl jsAdd (some acc) l = some s ∧ acc ≤ s ∧
        (l ≠ [] → acc < s) := by
  intro l
  induction l with
  | nil => intro acc _; exact ⟨acc, rfl, le_refl _, fun h => absurd rfl h⟩
  | cons x rest ih =>
    intro acc hl
    obtain ⟨q, hq, hqpos⟩ := hl x (by simp)
    obtain ⟨s, hs, hle, _⟩ := ih (acc + q)
      (fun y hy => hl y (by simp [hy]))
    refine ⟨s, ?_, by linarith, fun _ => by linarith⟩
    simp only [List.foldl_cons, hq, jsAdd_some]
    exact hs

theorem jsSum_pos (l : List JsNum) (hne : l ≠ [])
    (hall : ∀ x ∈ l, ∃ q, x = some q ∧ 0 < q) :
    ∃ s, jsSum l = some s ∧ 0 < s := by
  obtain ⟨s, hs, _, hlt⟩ := jsSum_pos_aux l 0 hall
  exact ⟨s, hs, hlt hne⟩

theorem recGet_none_forall (l : List (String × α)) (k : String)
    (h : recGet l k = none) : ∀ e ∈ l, e.1 ≠ k := by
  intro e he
  unfold recGet at h
  cases hf : List.find? (fun e => decide (e.1 = k)) l with
  | none =>
    have := List.find?_eq_none.mp hf e he
    simpa using this
  | some x => rw [hf] at h; exact Option.noConfusion h

theorem recGet_some_mem (l : List (String × α)) (k : String) (v : α)
    (h : recGet l k = some v) : (k, v) ∈ l := by
  unfold recGet at h
  cases hf : List.find? (fun e => decide (e.1 = k)) l with
  | none => rw [hf] at h; exact Option.noConfusion h
  | some x =>
    rw [hf] at h
    have hx1 : x.1 = k := by simpa using List.find?_some hf
    have hx2 : x.2 = v := by simpa using h
    have hmem := List.mem_of_find?_eq_some hf
    have : (k, v) = x := by
      rw [← hx1, ← hx2]
    rw [this]
    exact hmem

theorem recPut_self_mem (l : List (String × α)) (k : String) (v : α) :
    (k, v) ∈ recPut l k v := by
  induction l with
  | nil => simp [recPut]
  | cons e rest ih =>
    by_cases he : e.1 = k
    · simp [recPut, he]
    · simp only [recPut, if_neg he]
      exact List.mem_cons_of_mem _ ih

theorem mem_recPut_of_ne (l : List (String × α)) (k : String) (v : α)
    (e : String × α) (he : e ∈ l) (hne : e.1 ≠ k) : e ∈ recPut l k v := by
  induction l with
  | nil => simp at he
  | cons a rest ih =>
    rcases List.mem_cons.mp he with h | h
    · by_cases ha : a.1 = k
      · rw [h] at hne; rw [ha] at hne; exact absurd rfl hne
      · simp only [recPut, if_neg ha]
        exact h ▸ List.mem_cons_self a _
    · by_cases ha : a.1 = k
      · simp only [recPut, if_pos ha]
        exact List.mem_cons_of_mem _ h
      · simp only [recPut, if_neg ha]
        exact List.mem_cons_of_mem _ (ih h)

theorem mem_recPut (l : List (String × α)) (k : String) (v : α)
    (hdist : l.Pairwise (fun a b => a.1 ≠ b.1)) (e : String × α)
    (he : e ∈ recPut l k v) : e = (k, v) ∨ (e ∈ l ∧ e.1 ≠ k) := by
  induction l with
  | nil => simp [recPut] at he; exact Or.inl he
  | cons a rest ih =>
    obtain ⟨ha1, ha2⟩ := List.pairwise_cons.mp hdist
    by_cases ha : a.1 = k
    · simp only [recPut, if_pos ha] at he
      rcases List.mem_cons.mp he with h | h
      · exact Or.inl h
      · refine Or.inr ⟨List.mem_cons_of_mem _ h, ?_⟩
        rw [← ha]
        exact (ha1 e h).symm
    · simp only [recPut, if_neg ha] at he
      rcases List.mem_cons.mp he with h | h
      · exact Or.inr ⟨h ▸ List.mem_cons_self a _, h ▸ ha⟩
      · rcases ih ha2 h with h' | h'
        · exact Or.inl h'
        · exact Or.inr ⟨List.mem_cons_of_mem _ h'.1, h'.2⟩

theorem recPut_pairwise (l : List (String × α)) (k : String) (v : α)
    (hdist : l.Pairwise (fun a b => a.1 ≠ b.1)) :
    (recPut l k v).Pairwise (fun a b => a.1 ≠ b.1) := by
  induction l with
  | nil => simp [recPut]
  | cons a rest ih =>
    obtain ⟨ha1, ha2⟩ := List.pairwise_cons.mp hdist
    by_cases ha : a.1 = k
    · simp only [recPut, if_pos ha]
      refine List.pairwise_cons.mpr ⟨?_, ha2⟩
      intro b hb
      rw [← ha]
      exact ha1 b hb
    · simp only [recPut, if_neg ha]
      refine List.pairwise_cons.mpr ⟨?_, ih ha2⟩
      intro b hb
      rcases mem_recPut rest k v ha2 b hb with h | h
      · rw [h]; exact ha
      · exact ha1 b h.1

theorem recGet_cons (e : String × α) (l : List (String × α)) (k : String) :
    recGet (e :: l) k = if e.1 = k then some e.2 else recGet l k := by
  by_cases he : e.1 = k
  · simp [recGet, List.find?, he]
  · simp [recGet, List.find?, he]

theorem recGet_append_none :
    ∀ (l1 l2 : List (String × α)) (k : String), recGet l1 k = none →
      recGet (l1 ++ l2) k = recGet l2 k := by
  intro l1
  induction l1 with
  | nil => intro l2 k _; rfl
  | cons e rest ih =>
    intro l2 k h
    rw [recGet_cons] at h
    by_cases he : e.1 = k
    · rw [if_pos he] at h; exact Option.noConfusion h
    · rw [if_neg he] at h
      rw [List.cons_append, recGet_cons, if_neg he]
      exact ih l2 k h

theorem recGet_append_some :
    ∀ (l1 l2 : List (String × α)) (k : String) (v : α), recGet l1 k = some v →
      recGet (l1 ++ l2) k = some v := by
  intro l1
  induction l1 with
  | nil =>
    intro l2 k v h
    rw [show recGet ([] : List (String × α)) k = none from rfl] at h
    exact Option.noConfusion h
  | cons e rest ih =>
    intro l2 k v h
    rw [recGet_cons] at h
    by_cases he : e.1 = k
    · rw [if_pos he] at h
      rw [List.cons_append, recGet_cons, if_pos he]
      exact h
    · rw [if_neg he] at h
      rw [List.cons_append, recGet_cons, if_neg he]
      exact ih l2 k v h

theorem recGet_of_mem_pairwise :
    ∀ (l : List (String × α)), l.Pairwise (fun a b => a.1 ≠ b.1) →
      ∀ e ∈ l, recGet l e.1 = some e.2 := by
  intro l
  induction l with
  | nil => intro _ e he; simp at he
  | cons a rest ih =>
    intro hp e he
    obtain ⟨h1, h2⟩ := List.pairwise_cons.mp hp
    rw [recGet_cons]
    rcases List.mem_cons.mp he with h | h
    · subst h; simp
    · have hne : a.1 ≠ e.1 := h1 e h
      rw [if_neg hne]
      exact ih h2 e h

theorem jsGtB_zero (x : JsNum) (h : jsGtB x (some 0) = true) :
    ∃ q, x = some q ∧ 0 < q := by
  cases x with
  | none => exact absurd h (by simp [jsGtB])
  | some q => exact ⟨q, rfl, by simpa [jsGtB] using h⟩

theorem upsertDay_get_same (acc : List (String × JsNum × List Transaction))
    (t : Transaction) :
    recGet (upsertDay acc t) (dayKey t) =
      some (jsAdd ((recGet acc (dayKey t)).getD (some 0, [])).1 t.amount,
            ((recGet acc (dayKey t)).getD (some 0, [])).2 ++ [t]) := by
  unfold upsertDay
  cases h : recGet acc (dayKey t) with
  | some e =>
    simp only [h, Option.getD_some]
    exact recGet_recPut_same ..
  | none =>
    simp only [h, Option.getD_none]
    rw [recGet_append_none _ _ _ h]
    simp [recGet, List.find?]

theorem upsertDay_get_other (acc : List (String × JsNum × List Transaction))
    (t : Transaction) (d : String) (hne : d ≠ dayKey t) :
    recGet (upsertDay acc t) d = recGet acc d := by
  unfold upsertDay
  cases h : recGet acc (dayKey t) with
  | some e =>
    simp only [h]
    exact recGet_recPut_other _ _ _ _ hne
  | none =>
    simp only [h]
    cases h2 : recGet acc d with
    | some v =>
      rw [recGet_append_some _ _ _ _ h2]
    | none =>
      rw [recGet_append_none _ _ _ h2, recGet_cons]
      rw [if_neg (Ne.symm hne)]
      rfl

theorem upsertDay_pairwise (acc : List (String × JsNum × List Transaction))
    (t : Transaction) (hp : acc.Pairwise (fun a b => a.1 ≠ b.1)) :
    (upsertDay acc t).Pairwise (fun a b => a.1 ≠ b.1) := by
  unfold upsertDay
  cases h : recGet acc (dayKey t) with
  | some e =>
    simp only [h]
    exact recPut_pairwise _ _ _ hp
  | none =>
    simp only [h]
    refine List.pairwise_append.mpr ⟨hp, List.pairwise_singleton _ _, ?_⟩
    intro a ha b hb
    rw [List.mem_singleton] at hb
    rw [hb]
    exact recGet_none_forall _ _ h a ha

theorem upsertDay_foldl_pairwise :
    ∀ (l : List Transaction) (acc : List (String × JsNum × List Transaction)),
      acc.Pairwise (fun a b => a.1 ≠ b.1) →
      (l.foldl upsertDay acc).Pairwise (fun a b => a.1 ≠ b.1) := by
  intro l
  induction l with
  | nil => intro acc h; exact h
  | cons t rest ih => intro acc h; exact ih _ (upsertDay_pairwise acc t h)

theorem upsertDay_foldl_norm :
    ∀ (l : List Transaction) (acc : List (String × JsNum × List Transaction))
      (d : String),
      (recGet (l.foldl upsertDay acc) d).getD (some 0, []) =
        (List.foldl jsAdd ((recGet acc d).getD (some 0, [])).1
           ((l.filter (fun t => dayKey t == d)).map (fun t => t.amount)),
         ((recGet acc d).getD (some 0, [])).2 ++
           l.filter (fun t => dayKey t == d)) := by
  intro l
  induction l with
  | nil => intro acc d; simp
  | cons t rest ih =>
    intro acc d
    rw [List.foldl_cons, List.filter_cons]
    by_cases hd : dayKey t = d
    · have hs := upsertDay_get_same acc t
      rw [hd] at hs
      rw [if_pos (by simp [hd]), ih (upsertDay acc t) d, hs]
      simp [List.append_assoc]
    · rw [if_neg (by simp [hd]), ih (upsertDay acc t) d,
        upsertDay_get_other acc t d (Ne.symm hd)]

theorem upsertDay_foldl_none :
    ∀ (l : List Transaction) (acc : List (String × JsNum × List Transaction))
      (d : String),
      recGet acc d = none → l.filter (fun t => dayKey t == d) = [] →
      recGet (l.foldl upsertDay acc) d = none := by
  intro l
  induction l with
  | nil => intro acc d h _; exact h
  | cons t rest ih =>
    intro acc d h hf
    rw [List.filter_cons] at hf
    by_cases hd : dayKey t = d
    · rw [if_pos (by simp [hd])] at hf
      exact absurd hf (by simp)
    · rw [if_neg (by simp [hd])] at hf
      rw [List.foldl_cons]
      refine ih _ d ?_ hf
      rw [upsertDay_get_other acc t d (Ne.symm hd)]
      exact h

theorem upsertDay_isSome (acc : List (String × JsNum × List Transaction))
    (t : Transaction) (d : String) (h : (recGet acc d).isSome = true) :
    (recGet (upsertDay acc t) d).isSome = true := by
  by_cases hd : d = dayKey t
  · subst hd; rw [upsertDay_get_same]; rfl
  · rw [upsertDay_get_other acc t d hd]; exact h

theorem upsertDay_foldl_isSome :
    ∀ (l : List Transaction) (acc : List (String × JsNum × List Transaction))
      (d : String), (recGet acc d).isSome = true →
      (recGet (l.foldl upsertDay acc) d).isSome = true := by
  intro l
  induction l with
  | nil => intro acc d h; exact h
  | cons t rest ih => intro acc d h; exact ih _ d (upsertDay_isSome acc t d h)

theorem upsertDay_foldl_mem_isSome :
    ∀ (l : List Transaction) (acc : List (String × JsNum × List Transaction))
      (t : Transaction), t ∈ l →
      (recGet (l.foldl upsertDay acc) (dayKey t)).isSome = true := by
  intro l
  induction l with
  | nil => intro acc t ht; simp at ht
  | cons u rest ih =>
    intro acc t ht
    rw [List.foldl_cons]
    rcases List.mem_cons.mp ht with h | h
    · subst h
      apply upsertDay_foldl_isSome
      rw [upsertDay_get_same]; rfl
    · exact ih _ t h

theorem extremeStep_eq
    (acc : (Option DayInfo × ℚ) × (Option DayInfo × Option ℚ))
    (e : String × JsNum × List Transaction) :
    extremeStep acc e = (hiStep acc.1 e, loStep acc.2 e) := by
  obtain ⟨⟨hd, hm⟩, ld, lm⟩ := acc
  obtain ⟨d, a, ts⟩ := e
  cases a <;> cases lm <;> rfl

theorem extremeStep_foldl_split :
    ∀ (l : List (String × JsNum × List Transaction))
      (hi : Option DayInfo × ℚ) (lo : Option DayInfo × Option ℚ),
      l.foldl extremeStep (hi, lo) = (l.foldl hiStep hi, l.foldl loStep lo) := by
  intro l
  induction l with
  | nil => intro hi lo; rfl
  | cons e rest ih =>
    intro hi lo
    rw [List.foldl_cons, List.foldl_cons, List.foldl_cons, extremeStep_eq]
    exact ih _ _

theorem hiStep_foldl :
    ∀ (l : List (String × JsNum × List Transaction)) (d0 : Option DayInfo)
      (m0 : ℚ),
      (∀ e ∈ l, ∃ q, e.2.1 = some q ∧ 0 < q) →
      (l.foldl hiStep (d0, m0) = (d0, m0) ∧
        ∀ e ∈ l, ∀ q, e.2.1 = some q → q ≤ m0) ∨
      (∃ e ∈ l, (l.foldl hiStep (d0, m0)).1 = some (dayEntryInfo e) ∧
        e.2.1 = some (l.foldl hiStep (d0, m0)).2 ∧
        m0 < (l.foldl hiStep (d0, m0)).2 ∧
        ∀ e' ∈ l, ∀ q', e'.2.1 = some q' →
          q' ≤ (l.foldl hiStep (d0, m0)).2) := by
  intro l
  induction l with
  | nil => intro d0 m0 _; exact Or.inl ⟨rfl, by simp⟩
  | cons e rest ih =>
    intro d0 m0 hall
    obtain ⟨q, hq, hqpos⟩ := hall e (List.mem_cons_self e rest)
    have hall' : ∀ x ∈ rest, ∃ p, x.2.1 = some p ∧ 0 < p :=
      fun x hx => hall x (List.mem_cons_of_mem e hx)
    have hstep : hiStep (d0, m0) e =
        if m0 < q then (some (dayEntryInfo e), q) else (d0, m0) := by
      simp [hiStep, hq]
    rw [List.foldl_cons, hstep]
    by_cases hlt : m0 < q
    · rw [if_pos hlt]
      rcases ih (some (dayEntryInfo e)) q hall' with ⟨hr, hbnd⟩ |
        ⟨e', he', h1, h2, h3, h4⟩
      · rw [hr]
        refine Or.inr ⟨e, List.mem_cons_self e rest, rfl, hq, hlt, ?_⟩
        intro x hx p hp
        rcases List.mem_cons.mp hx with h | h
        · rw [h, hq] at hp
          exact le_of_eq (Option.some.inj hp).symm
        · exact hbnd x h p hp
      · refine Or.inr ⟨e', List.mem_cons_of_mem e he', h1, h2,
          lt_trans hlt h3, ?_⟩
        intro x hx p hp
        rcases List.mem_cons.mp hx with h | h
        · rw [h, hq] at hp
          rw [← Option.some.inj hp]
          exact le_of_lt h3
        · exact h4 x h p hp
    · rw [if_neg hlt]
      have hqle : q ≤ m0 := not_lt.mp hlt
      rcases ih d0 m0 hall' with ⟨hr, hbnd⟩ | ⟨e', he', h1, h2, h3, h4⟩
      · refine Or.inl ⟨hr, ?_⟩
        intro x hx p hp
        rcases List.mem_cons.mp hx with h | h
        · rw [h, hq] at hp
          rw [← Option.some.inj hp]
          exact hqle
        · exact hbnd x h p hp
      · refine Or.inr ⟨e', List.mem_cons_of_mem e he', h1, h2, h3, ?_⟩
        intro x hx p hp
        rcases List.mem_cons.mp hx with h | h
        · rw [h, hq] at hp
          rw [← Option.some.inj hp]
          exact le_of_lt (lt_of_le_of_lt hqle h3)
        · exact h4 x h p hp

theorem loStep_foldl :
    ∀ (l : List (String × JsNum × List Transaction))
      (st : Option DayInfo × Option ℚ),
      (∀ e ∈ l, ∃ q, e.2.1 = some q ∧ 0 < q) →
      (l.foldl loStep st = st ∧
        ∀ e ∈ l, ∀ q, e.2.1 = some q → ∃ a, st.2 = some a ∧ a ≤ q) ∨
      (∃ e ∈ l, (l.foldl loStep st).1 = some (dayEntryInfo e) ∧
        ∃ m, (l.foldl loStep st).2 = some m ∧ e.2.1 = some m ∧
          (∀ a, st.2 = some a → m < a) ∧
          ∀ e' ∈ l, ∀ q', e'.2.1 = some q' → m ≤ q') := by
  intro l
  induction l with
  | nil => intro st _; exact Or.inl ⟨rfl, by simp⟩
  | cons e rest ih =>
    intro st hall
    obtain ⟨q, hq, hqpos⟩ := hall e (List.mem_cons_self e rest)
    have hall' : ∀ x ∈ rest, ∃ p, x.2.1 = some p ∧ 0 < p :=
      fun x hx => hall x (List.mem_cons_of_mem e hx)
    obtain ⟨sd, sa⟩ := st
    rw [List.foldl_cons]
    cases sa with
    | none =>
      have hstep : loStep (sd, none) e = (some (dayEntryInfo e), some q) := by
        simp [loStep, hq]
      rw [hstep]
      rcases ih (some (dayEntryInfo e), some q) hall' with ⟨hr, hbnd⟩ |
        ⟨e', he', h1, m, h2, h3, h4, h5⟩
      · rw [hr]
        refine Or.inr ⟨e, List.mem_cons_self e rest, rfl, q, rfl, hq, ?_, ?_⟩
        · intro a ha; exact Option.noConfusion ha
        · intro x hx p hp
          rcases List.mem_cons.mp hx with h | h
          · rw [h, hq] at hp
            exact le_of_eq (Option.some.inj hp)
          · obtain ⟨a, ha, hale⟩ := hbnd x h p hp
            rw [Option.some.inj ha]
            exact hale
      · refine Or.inr ⟨e', List.mem_cons_of_mem e he', h1, m, h2, h3, ?_, ?_⟩
        · intro a ha; exact Option.noConfusion ha
        · intro x hx p hp
          rcases List.mem_cons.mp hx with h | h
          · rw [h, hq] at hp
            rw [← Option.some.inj hp]
            exact le_of_lt (h4 q rfl)
          · exact h5 x h p hp
    | some a =>
      by_cases hlt : q < a
      · have hstep : loStep (sd, some a) e = (some (dayEntryInfo e), some q) := by
          simp [loStep, hq, hlt]
        rw [hstep]
        rcases ih (some (dayEntryInfo e), some q) hall' with ⟨hr, hbnd⟩ |
          ⟨e', he', h1, m, h2, h3, h4, h5⟩
        · rw [hr]
          refine Or.inr ⟨e, List.mem_cons_self e rest, rfl, q, rfl, hq, ?_, ?_⟩
          · intro a' ha'
            rw [← Option.some.inj ha']
            exact hlt
          · intro x hx p hp
            rcases List.mem_cons.mp hx with h | h
            · rw [h, hq] at hp
              exact le_of_eq (Option.some.inj hp)
            · obtain ⟨a', ha', hale⟩ := hbnd x h p hp
              rw [Option.some.inj ha']
              exact hale
        · refine Or.inr ⟨e', List.mem_cons_of_mem e he', h1, m, h2, h3, ?_, ?_⟩
          · intro a' ha'
            rw [← Option.some.inj ha']
            exact lt_trans (h4 q rfl) hlt
          · intro x hx p hp
            rcases List.mem_cons.mp hx with h | h
            · rw [h, hq] at hp
              rw [← Option.some.inj hp]
              exact le_of_lt (h4 q rfl)
            · exact h5 x h p hp
      · have hstep : loStep (sd, some a) e = (sd, some a) := by
          simp [loStep, hq, hlt]
        rw [hstep]
        have hale : a ≤ q := not_lt.mp hlt
        rcases ih (sd, some a) hall' with ⟨hr, hbnd⟩ |
          ⟨e', he', h1, m, h2, h3, h4, h5⟩
        · refine Or.inl ⟨hr, ?_⟩
          intro x hx p hp
          rcases List.mem_cons.mp hx with h | h
          · rw [h, hq] at hp
            rw [← Option.some.inj hp]
            exact ⟨a, rfl, hale⟩
          · exact hbnd x h p hp
        · refine Or.inr ⟨e', List.mem_cons_of_mem e he', h1, m, h2, h3, h4, ?_⟩
          intro x hx p hp
          rcases List.mem_cons.mp hx with h | h
          · rw [h, hq] at hp
            rw [← Option.some.inj hp]
            exact le_of_lt (lt_of_lt_of_le (h4 a rfl) hale)
          · exact h5 x h p hp

theorem filter_expense_category (txs : List Transaction) (c : String) :
    (txs.filter (fun t => t.type == "expense")).filter
        (fun t => t.category == c) =
      txs.filter (fun t => t.type == "expense" && t.category == c) := by
  induction txs with
  | nil => rfl
  | cons t rest ih =>
    by_cases h1 : t.type = "expense" <;> by_cases h2 : t.category = c <;>
      simp [List.filter_cons, h1, h2, ih]

theorem daily_extremes (cy : Int) (txs : List Transaction)
    (mopt : Option String) (hne : dailyFilter cy txs mopt ≠ [])
    (hpos : ∀ t ∈ dailyFilter cy txs mopt, jsGtB t.amount (some 0) = true) :
    dailyExtremesNaive cy txs mopt := by
  have hE : (dailyFilter cy txs mopt).isEmpty = false := by
    cases h : dailyFilter cy txs mopt with
    | nil => exact absurd h hne
    | cons a l => rfl
  have hcalc : calculateDailySpending cy txs mopt =
      { found := true,
        highestDay :=
          (((dailyFilter cy txs mopt).foldl upsertDay []).foldl hiStep
            (none, 0)).1,
        lowestDay :=
          (((dailyFilter cy txs mopt).foldl upsertDay []).foldl loStep
            (none, none)).1 } := by
    unfold calculateDailySpending
    dsimp only
    rw [if_neg (by rw [hE]; exact Bool.false_ne_true), extremeStep_foldl_split]
  have hDTpair := upsertDay_foldl_pairwise (dailyFilter cy txs mopt) []
    List.Pairwise.nil
  have hentry : ∀ e ∈ (dailyFilter cy txs mopt).foldl upsertDay [],
      e.2.1 = naiveDaySum cy mopt e.1 txs ∧
      (dailyFilter cy txs mopt).filter (fun t => dayKey t == e.1) ≠ [] ∧
      ∃ q, e.2.1 = some q ∧ 0 < q := by
    intro e he
    have hget : recGet ((dailyFilter cy txs mopt).foldl upsertDay []) e.1 =
        some e.2 := recGet_of_mem_pairwise _ hDTpair e he
    have hnorm := upsertDay_foldl_norm (dailyFilter cy txs mopt) [] e.1
    rw [hget,
      show recGet ([] : List (String × JsNum × List Transaction)) e.1 = none
        from rfl] at hnorm
    simp only [Option.getD_some, Option.getD_none, List.nil_append] at hnorm
    have hfil : (dailyFilter cy txs mopt).filter
        (fun t => dayKey t == e.1) ≠ [] := by
      intro hnil
      have h0 := upsertDay_foldl_none (dailyFilter cy txs mopt) [] e.1 rfl hnil
      rw [h0] at hget
      exact Option.noConfusion hget
    have hv : e.2.1 = naiveDaySum cy mopt e.1 txs := by
      rw [hnorm]
      rfl
    refine ⟨hv, hfil, ?_⟩
    have hmapne : ((dailyFilter cy txs mopt).filter
        (fun t => dayKey t == e.1)).map (fun t => t.amount) ≠ [] := by
      intro h
      exact hfil (List.map_eq_nil_iff.mp h)
    have hallx : ∀ x ∈ ((dailyFilter cy txs mopt).filter
        (fun t => dayKey t == e.1)).map (fun t => t.amount),
        ∃ p, x = some p ∧ 0 < p := by
      intro x hx
      obtain ⟨t, ht, hteq⟩ := List.mem_map.mp hx
      obtain ⟨p, hp, hppos⟩ := jsGtB_zero t.amount
        (hpos t (List.mem_filter.mp ht).1)
      exact ⟨p, by rw [← hteq]; exact hp, hppos⟩
    obtain ⟨s, hs, hspos⟩ := jsSum_pos _ hmapne hallx
    rw [hv]
    exact ⟨s, hs, hspos⟩
  have hcover : ∀ t ∈ dailyFilter cy txs mopt,
      ∃ v, recGet ((dailyFilter cy txs mopt).foldl upsertDay []) (dayKey t) =
        some v := by
    intro t ht
    exact Option.isSome_iff_exists.mp (upsertDay_foldl_mem_isSome _ [] t ht)
  have hDTne : (dailyFilter cy txs mopt).foldl upsertDay [] ≠ [] := by
    obtain ⟨t0, ht0⟩ := List.exists_mem_of_ne_nil (dailyFilter cy txs mopt) hne
    obtain ⟨v, hv⟩ := hcover t0 ht0
    intro hDT
    rw [hDT] at hv
    exact Option.noConfusion hv
  have hall : ∀ e ∈ (dailyFilter cy txs mopt).foldl upsertDay [],
      ∃ q, e.2.1 = some q ∧ 0 < q :=
    fun e he => (hentry e he).2.2
  rcases hiStep_foldl ((dailyFilter cy txs mopt).foldl upsertDay []) none 0
    hall with ⟨_, hbnd⟩ | ⟨e, heDT, h1, h2, h3, h4⟩
  · exfalso
    obtain ⟨e0, he0⟩ := List.exists_mem_of_ne_nil _ hDTne
    obtain ⟨q, hq, hqpos⟩ := hall e0 he0
    exact absurd (hbnd e0 he0 q hq) (not_le.mpr hqpos)
  rcases loStep_foldl ((dailyFilter cy txs mopt).foldl upsertDay [])
    (none, none) hall with ⟨_, lbnd⟩ | ⟨f, hfDT, g1, m, g2, g3, _, g5⟩
  · exfalso
    obtain ⟨e0, he0⟩ := List.exists_mem_of_ne_nil _ hDTne
    obtain ⟨q, hq, _⟩ := hall e0 he0
    obtain ⟨a, ha, _⟩ := lbnd e0 he0 q hq
    exact Option.noConfusion ha
  obtain ⟨hveq, hfil_e, _⟩ := hentry e heDT
  obtain ⟨gveq, hfil_f, _⟩ := hentry f hfDT
  obtain ⟨te, hte⟩ := List.exists_mem_of_ne_nil _ hfil_e
  have hteF : te ∈ dailyFilter cy txs mopt := (List.mem_filter.mp hte).1
  have hteK : dayKey te = e.1 := beq_iff_eq.mp (List.mem_filter.mp hte).2
  obtain ⟨tf, htf⟩ := List.exists_mem_of_ne_nil _ hfil_f
  have htfF : tf ∈ dailyFilter cy txs mopt := (List.mem_filter.mp htf).1
  have htfK : dayKey tf = f.1 := beq_iff_eq.mp (List.mem_filter.mp htf).2
  unfold dailyExtremesNaive
  refine ⟨?_, ?_, ?_⟩
  · rw [hcalc]
  · refine ⟨dayEntryInfo e, ?_, te, hteF, ?_, ?_, ?_⟩
    · rw [hcalc]
      exact h1
    · rw [hteK]
      rfl
    · rw [hteK]
      show e.2.1 = naiveDaySum cy mopt e.1 txs
      exact hveq
    · intro t ht
      obtain ⟨v, hv⟩ := hcover t ht
      have hmem : ((dayKey t, v) : String × JsNum × List Transaction) ∈
          (dailyFilter cy txs mopt).foldl upsertDay [] :=
        recGet_some_mem _ _ _ hv
      obtain ⟨hveq', _, q', hq'eq, _⟩ := hentry _ hmem
      have hveq'2 : v.1 = naiveDaySum cy mopt (dayKey t) txs := hveq'
      have hq'eq2 : v.1 = some q' := hq'eq
      have hb := h4 _ hmem q' hq'eq
      rw [hteK, ← hveq, ← hveq'2, hq'eq2, h2]
      simpa [jsLeB] using hb
  · refine ⟨dayEntryInfo f, ?_, tf, htfF, ?_, ?_, ?_⟩
    · rw [hcalc]
      exact g1
    · rw [htfK]
      rfl
    · rw [htfK]
      show f.2.1 = naiveDaySum cy mopt f.1 txs
      exact gveq
    · intro t ht
      obtain ⟨v, hv⟩ := hcover t ht
      have hmem : ((dayKey t, v) : String × JsNum × List Transaction) ∈
          (dailyFilter cy txs mopt).foldl upsertDay [] :=
        recGet_some_mem _ _ _ hv
      obtain ⟨hveq', _, q', hq'eq, _⟩ := hentry _ hmem
      have hveq'2 : v.1 = naiveDaySum cy mopt (dayKey t) txs := hveq'
      have hq'eq2 : v.1 = some q' := hq'eq
      have hb := g5 _ hmem q' hq'eq
      rw [htfK, ← gveq, ← hveq'2, hq'eq2, g3]
      simpa [jsLeB] using hb

/-- C1 counterexample: on the empty transaction list the router's
April answer is the fabricated sample ($180 across 5 transactions),
while the naive recomputation gives $0 across 0 transactions. -/
theorem claim_C1_counterexample :
    monthMapAbbrev "april" = some 3 ∧
    (calculateMonthlySpending 2025 [] "april").amount ≠
      naiveMonthSum 2025 3 [] ∧
    (calculateMonthlySpending 2025 [] "april").transactionCount ≠
      naiveMonthCount 2025 3 [] := by
  refine ⟨by decide, by decide, by decide⟩

/-- C1 (amended): the router's answers equal the naive recomputation
except for the sample fallback.  (a) For a recognised month with at
least one matching expense, the reported amount and count are the
naive sum and count for that month.  (b) With no `NaN` expense
amounts, the category breakdown read for any category equals the
naive per-category sum.  (c) With non-empty dates and positive
amounts in the filtered data, both day extremes exist, report days
present in the data with their naive per-day sums, and those sums are
maximal (resp. minimal) among all days present. -/
theorem claim_C1_amended (cy : Int) (txs : List Transaction) :
    (∀ monthName tm, monthMapAbbrev monthName = some tm →
      monthlyFilter cy tm txs ≠ [] →
      (calculateMonthlySpending cy txs monthName).amount =
        naiveMonthSum cy tm txs ∧
      (calculateMonthlySpending cy txs monthName).transactionCount =
        naiveMonthCount cy tm txs) ∧
    ((∀ t ∈ txs, t.type = "expense" → t.amount ≠ none) →
      ∀ c, orZero (recGet (categoryBreakdownOf txs) c) =
        naiveCategorySum txs c) ∧
    (∀ mopt, dailyFilter cy txs mopt ≠ [] →
      (∀ t ∈ dailyFilter cy txs mopt,
        t.date ≠ "" ∧ jsGtB t.amount (some 0) = true) →
      dailyExtremesNaive cy txs mopt) := by
  refine ⟨?_, ?_, ?_⟩
  · intro monthName tm hm hmne
    have hE : (monthlyFilter cy tm txs).isEmpty = false := by
      cases h : monthlyFilter cy tm txs with
      | nil => exact absurd h hmne
      | cons a l => rfl
    have hcalc : calculateMonthlySpending cy txs monthName =
        { found := true, monthName := monthNamesLong.getD tm "",
          amount := jsSum ((monthlyFilter cy tm txs).map (fun t => t.amount)),
          transactionCount := (monthlyFilter cy tm txs).length,
          topCategory := (sortByAmtDesc ((monthlyFilter cy tm txs).foldl
            (fun acc t => accumAmount acc t.category t.amount) [])).head? } := by
      unfold calculateMonthlySpending
      simp only [hm]
      rw [if_neg (by rw [hE]; exact Bool.false_ne_true)]
    rw [hcalc]
    exact ⟨rfl, rfl⟩
  · intro hsome c
    have hs : ∀ t ∈ txs.filter (fun t => t.type == "expense"),
        ∃ q, t.amount = some q := by
      intro t ht
      have h1 := (List.mem_filter.mp ht).1
      have h2 : t.type = "expense" := beq_iff_eq.mp (List.mem_filter.mp ht).2
      exact Option.ne_none_iff_exists'.mp (hsome t h1 h2)
    have h := accum_fold c (txs.filter (fun t => t.type == "expense")) [] hs
    unfold categoryBreakdownOf naiveCategorySum
    rw [h, filter_expense_category]
    rfl
  · intro mopt hdne hcond
    exact daily_extremes cy txs mopt hdne (fun t ht => (hcond t ht).2)

/-- C1 witness: on the concrete September ledger the amended claim
yields the month, category and day-extreme agreements. -/
theorem claim_C1_witness :
    ((calculateMonthlySpending 2025 c1txs "september").amount =
        naiveMonthSum 2025 8 c1txs ∧
      (calculateMonthlySpending 2025 c1txs "september").transactionCount =
        naiveMonthCount 2025 8 c1txs) ∧
    orZero (recGet (categoryBreakdownOf c1txs) "food") =
      naiveCategorySum c1txs "food" ∧
    dailyExtremesNaive 2025 c1txs none := by
  have h := claim_C1_amended 2025 c1txs
  exact ⟨h.1 "september" 8 (by decide) (by decide),
    h.2.1 (by decide) "food", h.2.2 none (by decide) (by decide)⟩

end FinAgent
